import Mathlib

/-!
# Community deletion, backup and restoration (urban_ease admin console)

A shallow embedding of

* `Server/utils/communityCascadeDelete.js` (`collectNotificationIds`, `deleteCommunityCascade`),
* `Server/controllers/admin/communityController.js` (`getDeletePreview`, `deleteCommunity`,
  `restoreCommunity`),
* `Server/models/deletedCommunityBackup.js` (the backup schema and its defaults),
* `Server/utils/auditLogger.js` (`createAuditLog`),
* `Server/middleware/rbac.js` (`PERMISSIONS`, `hasPermission`, `requirePermission`) and the
  route table of `Server/routes/adminRouter.js`,
* `Server/middleware/validation.js` (`sanitizeTextInput`),
* `Server/controllers/Manager/helpers.js` (`validateFields`) and
  `Server/controllers/Manager/spaces.controller.js` (`createSpace`),
* `Client/src/Services/adminApiClient.js` (`isRetryableError`, `request`),
* `Server/controllers/Manager/community.controller.js` (the flat generation of
  `setupCommunityStructure`).

The document store is modelled as explicit state: every collection is a list of documents in
insertion order, `find` is `List.filter`, `deleteMany` removes the matching documents,
`create` / `insertMany` append and are rejected on an `_id` that is already stored (the unique
`_id` index of MongoDB) or for a reason that the documents of the model do not show (another
unique index, a validator of the schema, the connection), which `Faults` stands for, and a
handler is a function from the state before the request to the state after it together with
the HTTP response it sent.
-/

namespace UrbanEase

/-! ## Data model -/

/-- MongoDB `ObjectId`; request parameters are taken to be well-formed ids. -/
abbrev ObjectId := Nat

/-- Instants (`Date`), in milliseconds. -/
abbrev Date := Nat

/-- The thirteen dependent collections, named by their key in `communityData`:
Resident, Issue, Worker, Security, CommunityManager, Amenity, CommonSpaces, Payment,
CommunitySubscription, Visitor, VisitorPreApproval, Notifications, Ad. -/
inductive Coll
  | residents | issues | workers | securities | managers | amenities | commonSpaces
  | payments | subscriptions | visitors | preapprovals | notifications | ads
  deriving DecidableEq, Repr, Fintype

/-- A dependent document as returned by `.lean()`: its `_id`, the four ownership fields that the
queries of the controllers look at (a field that is not set is `none`), the `notifications`
reference list of Resident / Worker / Security / CommunityManager, and `fields` standing for
all the remaining attributes together. -/
structure Doc where
  _id : ObjectId
  community : Option ObjectId := none
  communityId : Option ObjectId := none
  communityAssigned : Option ObjectId := none
  assignedCommunity : Option ObjectId := none
  notifications : List ObjectId := []
  fields : Nat := 0
  deriving DecidableEq, Repr

/-- A Community document (`community.toObject()` keeps `_id`). -/
structure CommunityDoc where
  _id : ObjectId
  name : String
  location : String
  fields : Nat := 0
  deriving DecidableEq, Repr

/-- The `status` enum of `deletedCommunityBackupSchema`. -/
inductive BackupStatus
  | pending | restored | permanently_deleted
  deriving DecidableEq, Repr

/-- The `communityData` payload of a backup: the community document and one list per
dependent collection. -/
structure CommunityData where
  community : CommunityDoc
  lists : Coll → List Doc

/-- The `deletionMetadata` sub-document. -/
structure DeletionMetadata where
  deletedBy : ObjectId
  deletedByEmail : String
  deletedAt : Date
  reason : String
  counts : Coll → Nat

/-- A `DeletedCommunityBackup` document. -/
structure Backup where
  _id : ObjectId
  originalCommunityId : ObjectId
  communityData : CommunityData
  deletionMetadata : DeletionMetadata
  permanentDeleteAt : Date
  status : BackupStatus
  restoredAt : Option Date
  restoredBy : Option ObjectId

/-- The object `restoredCounts` of `restoreCommunity`: a key is present only once it was
assigned. -/
structure RestoredCounts where
  community : Option Nat
  lists : Coll → Option Nat

/-- The `metadata` of the audit entries written by the two handlers. -/
inductive AuditMetadata
  | delete_community (backupId : ObjectId) (deletedCounts : Coll → Nat)
      (reason : Option String) (canRestoreUntil : Date)
  | restore_community (backupId : ObjectId) (restoredCounts : RestoredCounts)

/-- An `AdminAuditLog` document (the parameters of `createAuditLog`). -/
structure AuditLog where
  adminId : ObjectId
  adminEmail : String
  action : String
  targetType : String
  targetId : ObjectId
  targetName : String
  metadata : AuditMetadata
  ip : String
  userAgent : String
  status : String

/-- The database: the Community collection, the thirteen dependent collections, the
InterestForm collection read by the preview, the backups and the audit log. -/
structure Db where
  communities : List CommunityDoc
  docs : Coll → List Doc
  interestForms : List Doc
  backups : List Backup
  auditLogs : List AuditLog

/-- The authenticated admin (`req.user`). -/
structure User where
  id : ObjectId
  email : String

/-- A request: `req.params.id` (or `req.params.backupId`), `req.user`, `req.body.reason`,
`req.ip` and the user-agent header. -/
structure Req where
  id : ObjectId
  user : User
  reason : Option String := none
  ip : String := ""
  userAgent : String := ""

/-- Store operations that may reject for a reason outside the data (connection, validation,
size limit, a unique index on a field the model does not show): `some msg` makes the operation
throw an error with message `msg`. `communityCreate` is `Community.create`, `insertMany k` the
whole `insertMany` call on collection `k` (a document that fails a validator of the schema, the
connection: nothing is stored), `insertDoc k d` the insert of the single document `d` by the
store (another unique index: the documents before `d` are stored), `backupSave` is
`backup.save()`. -/
structure Faults where
  backupCreate : Option String := none
  deleteMany : Coll → Option String := fun _ => none
  communityDelete : Option String := none
  auditCreate : Option String := none
  communityCreate : Option String := none
  insertMany : Coll → Option String := fun _ => none
  insertDoc : Coll → Doc → Option String := fun _ _ => none
  backupSave : Option String := none

/-- The environment of one request: the clock (`Date.now()`, `new Date()`) and the faults. -/
structure Env where
  now : Date
  faults : Faults := {}

/-- The `willDelete` object of the delete preview. -/
structure WillDelete where
  residents : Nat
  issues : Nat
  workers : Nat
  securities : Nat
  managers : Nat
  amenities : Nat
  commonSpaces : Nat
  payments : Nat
  subscriptions : Nat
  deriving DecidableEq, Repr

/-- The part of a JSON response that depends on the handler. In `deleted` the count of
`Coll.managers` is the key `communityManagers` of `deletedCounts`. -/
inductive Body
  | plain
  | error (error : String)
  | preview (communityId : ObjectId) (name location : String) (willDelete : WillDelete)
  | deleted (deleted : Coll → Nat) (backupId : ObjectId) (canRestoreUntil : Date)
  | restored (communityId : ObjectId) (name location : String) (restored : RestoredCounts)

/-- An HTTP response `res.status(status).json({ success, message, ... })`. -/
structure Response where
  status : Nat
  success : Bool
  message : String
  body : Body

/-! ## Store operations -/

/-- The message of the error MongoDB raises on a second document with the same `_id`. -/
def duplicateKey : String := "E11000 duplicate key error"

/-- Modelled from the spec: `getCommunityByIdCrud` of `crud/index.js`, which is not among the
sources; it loads the Community whose `_id` is `id`, and resolves to nothing when the id
resolves to no record. -/
def getCommunityById (db : Db) (id : ObjectId) : Option CommunityDoc :=
  db.communities.find? (fun c => c._id == id)

/-- `DeletedCommunityBackup.findById(backupId)`. -/
def findBackupById (db : Db) (backupId : ObjectId) : Option Backup :=
  db.backups.find? (fun b => b._id == backupId)

/-- A fresh `ObjectId` for a new backup: larger than every stored one. -/
def freshId (ids : List ObjectId) : ObjectId :=
  ids.foldr max 0 + 1

/-- `Community.create(doc)`: the document is stored under the `_id` it carries. The insert
throws when the store rejects it for a reason outside the `_id` (`fault`: a validator, another
unique index, the connection) and when a stored document has the same `_id`. -/
def Community.create (fault : Option String) (coll : List CommunityDoc) (doc : CommunityDoc) :
    Except String (List CommunityDoc) :=
  match fault with
  | some msg => .error msg
  | none =>
    if coll.any (fun c => c._id == doc._id) then .error duplicateKey else .ok (coll ++ [doc])

/-- The ordered write of `Model.insertMany(docs)`: the documents are inserted one after the
other and the first one that the store rejects, because its `_id` is already stored or for
another reason (`reject`), stops the insert with an error; the documents before it stay
inserted. Returns the collection and the message of the error, if one was thrown. -/
def insertOrdered (reject : Doc → Option String) :
    List Doc → List Doc → List Doc × Option String
  | coll, [] => (coll, none)
  | coll, d :: ds =>
    if coll.any (fun e => e._id == d._id) then (coll, some duplicateKey)
    else
      match reject d with
      | some msg => (coll, some msg)
      | none => insertOrdered reject (coll ++ [d]) ds

/-- `Model.insertMany(docs)`: the call throws before anything is written when `fault` is set
(Mongoose validates every document before it sends the insert), and is the ordered write
otherwise. -/
def insertMany (fault : Option String) (reject : Doc → Option String) (coll docs : List Doc) :
    List Doc × Option String :=
  match fault with
  | some msg => (coll, some msg)
  | none => insertOrdered reject coll docs

/-- `backup.save()`: the stored document with the `_id` of `b` is replaced by `b`. -/
def saveBackup (b : Backup) : List Backup → List Backup
  | [] => []
  | x :: xs => if x._id == b._id then b :: xs else x :: saveBackup b xs

/-- `createAuditLog` of `utils/auditLogger.js`: appends the entry and returns it; when
`AdminAuditLog.create` throws, the error is logged and `null` is returned. -/
def createAuditLog (f : Faults) (db : Db) (entry : AuditLog) : Db × Option AuditLog :=
  match f.auditCreate with
  | some _ => (db, none)
  | none => ({ db with auditLogs := db.auditLogs ++ [entry] }, some entry)

/-! ## `utils/communityCascadeDelete.js` -/

/-- `Set.prototype.add` on a set kept in insertion order. -/
def setAdd (ids : List ObjectId) (id : ObjectId) : List ObjectId :=
  if id ∈ ids then ids else ids ++ [id]

/-- `collectNotificationIds(docs)`: the set of the ids listed in `doc.notifications` of the
given documents; a document with an empty list is skipped. -/
def collectNotificationIds (docs : List Doc) : List ObjectId :=
  docs.foldl
    (fun ids doc => if doc.notifications.length = 0 then ids else doc.notifications.foldl setAdd ids)
    []

/-- The filter that `deleteCommunityCascade` passes to `deleteMany` on each of the twelve
collections of its `Promise.all`. Notifications are not part of that `Promise.all` (they are
deleted by id afterwards), so nothing matches there. -/
def cascadeFilter (communityFilter : ObjectId) : Coll → Doc → Bool
  | .ads, d => d.community == some communityFilter
  | .amenities, d => d.community == some communityFilter
  | .commonSpaces, d => d.community == some communityFilter
  | .issues, d => d.community == some communityFilter
  | .payments, d => d.community == some communityFilter || d.communityId == some communityFilter
  | .visitors, d => d.community == some communityFilter
  | .preapprovals, d => d.community == some communityFilter
  | .residents, d => d.community == some communityFilter
  | .workers, d =>
    d.community == some communityFilter || d.communityAssigned == some communityFilter
  | .securities, d =>
    d.community == some communityFilter || d.communityAssigned == some communityFilter
  | .subscriptions, d => d.communityId == some communityFilter
  | .managers, d =>
    d.assignedCommunity == some communityFilter || d.communityAssigned == some communityFilter
  | .notifications, _ => false

/-- The twelve collections of the `Promise.all`, in the order of the array. -/
def cascadeOrder : List Coll :=
  [.ads, .amenities, .commonSpaces, .issues, .payments, .visitors, .preapprovals, .residents,
   .workers, .securities, .subscriptions, .managers]

/-- The value `deleteCommunityCascade` resolves to. -/
structure CascadeResult where
  deletedCommunityId : Option ObjectId
  deletedCounts : Coll → Nat

/-- `Community.findByIdAndDelete(id)`: removes the document with that `_id`. -/
def findByIdAndDelete (id : ObjectId) : List CommunityDoc → List CommunityDoc
  | [] => []
  | c :: cs => if c._id == id then cs else c :: findByIdAndDelete id cs

/-- `deleteCommunityCascade(communityId)`. The four owner reads come first, the twelve
`deleteMany` calls are issued together (a rejected one leaves its collection as it was, the
others still complete, and the first rejection of the array is thrown), then the collected
notifications are deleted by id when there are any, then the community itself. -/
def deleteCommunityCascade (f : Faults) (db : Db) (communityId : ObjectId) :
    Db × Except String CascadeResult :=
  let communityFilter := communityId
  let residents := (db.docs .residents).filter (fun d => d.community == some communityFilter)
  let managers :=
    (db.docs .managers).filter (fun d => d.assignedCommunity == some communityFilter)
  let workers := (db.docs .workers).filter (fun d => d.community == some communityFilter)
  let securities := (db.docs .securities).filter (fun d => d.community == some communityFilter)
  let notificationIds :=
    (collectNotificationIds residents ++ collectNotificationIds managers ++
      collectNotificationIds workers ++ collectNotificationIds securities).foldl setAdd []
  let db1 : Db :=
    { db with
      docs := fun k =>
        match f.deleteMany k with
        | some _ => db.docs k
        | none => (db.docs k).filter (fun d => !cascadeFilter communityFilter k d) }
  match cascadeOrder.findSome? f.deleteMany with
  | some msg => (db1, .error msg)
  | none =>
    let deletedCount : Coll → Nat :=
      fun k => ((db.docs k).filter (cascadeFilter communityFilter k)).length
    let step (db2 : Db) (notificationsCount : Nat) : Db × Except String CascadeResult :=
      match f.communityDelete with
      | some msg => (db2, .error msg)
      | none =>
        let deletedCommunity := db2.communities.find? (fun c => c._id == communityFilter)
        ({ db2 with communities := findByIdAndDelete communityFilter db2.communities },
          .ok
            { deletedCommunityId := deletedCommunity.map (fun c => c._id)
              deletedCounts := fun k =>
                if k = .notifications then notificationsCount else deletedCount k })
    if notificationIds.length > 0 then
      match f.deleteMany .notifications with
      | some msg => (db1, .error msg)
      | none =>
        let hit : Doc → Bool := fun d => decide (d._id ∈ notificationIds)
        step
          { db1 with
            docs := fun k =>
              if k = .notifications then (db1.docs k).filter (fun d => !hit d) else db1.docs k }
          ((db1.docs .notifications).filter hit).length
    else step db1 0

/-! ## `controllers/admin/communityController.js` -/

/-- The `find` filter of the snapshot reads of `deleteCommunity`: `{ assignedCommunity: id }`
for CommunityManager and `{ community: id }` for every other collection. -/
def snapshotFilter (id : ObjectId) : Coll → Doc → Bool
  | .managers, d => d.assignedCommunity == some id
  | _, d => d.community == some id

/-- `30 * 24 * 60 * 60 * 1000`, the default offset of `permanentDeleteAt`. -/
def thirtyDays : Nat := 30 * 24 * 60 * 60 * 1000

/-- `req.body.reason || 'No reason provided'`. -/
def reasonOrDefault : Option String → String
  | none => "No reason provided"
  | some r => if r = "" then "No reason provided" else r

/-- The document `DeletedCommunityBackup.create` stores in `deleteCommunity`, with the schema
defaults (`deletedAt`, `permanentDeleteAt`, `status`). -/
def newBackup (env : Env) (db : Db) (req : Req) (community : CommunityDoc) : Backup :=
  let lists : Coll → List Doc := fun k => (db.docs k).filter (snapshotFilter req.id k)
  { _id := freshId (db.backups.map (fun b => b._id))
    originalCommunityId := req.id
    communityData := { community := community, lists := lists }
    deletionMetadata :=
      { deletedBy := req.user.id
        deletedByEmail := req.user.email
        deletedAt := env.now
        reason := reasonOrDefault req.reason
        counts := fun k => (lists k).length }
    permanentDeleteAt := env.now + thirtyDays
    status := .pending
    restoredAt := none
    restoredBy := none }

/-- Modelled from the spec: `countResidents` of `crud/index.js`, which is not among the
sources; the number of Resident records that match the filter. -/
def countResidents (db : Db) (filter : Doc → Bool) : Nat :=
  ((db.docs .residents).filter filter).length

/-- Modelled from the spec: `listInterestForms` of `crud/index.js`, which is not among the
sources; with the empty filter, every InterestForm record. -/
def listInterestForms (db : Db) : List Doc :=
  db.interestForms

/-- Modelled from the spec: `listCommunityManagers` of `crud/index.js`, which is not among the
sources; the CommunityManager records that match the filter. -/
def listCommunityManagers (db : Db) (filter : Doc → Bool) : List Doc :=
  (db.docs .managers).filter filter

/-- Modelled from the spec: `listCommunitySubscriptions` of `crud/index.js`, which is not among
the sources; the CommunitySubscription records that match the filter. -/
def listCommunitySubscriptions (db : Db) (filter : Doc → Bool) : List Doc :=
  (db.docs .subscriptions).filter filter

/-- `getDeletePreview`: the eight promises are destructured, in order, into `residents`,
`issues`, `workers`, `securities`, `amenities`, `commonSpaces`, `payments`, `subscriptions`;
each `aggregateCommunities(...).then(() => 0)` resolves to `0`. The success response of the
preview has no `message` key: the field is left empty. -/
def getDeletePreview (db : Db) (req : Req) : Response :=
  let id := req.id
  match getCommunityById db id with
  | none => { status := 404, success := false, message := "Community not found", body := .plain }
  | some community =>
    let residents := countResidents db (fun d => d.community == some id)
    let issues := (listInterestForms db).length
    let workers := (listCommunityManagers db (fun d => d.assignedCommunity == some id)).length
    let securities := 0
    let amenities := 0
    let commonSpaces := 0
    let payments := 0
    let subscriptions :=
      (listCommunitySubscriptions db (fun d => d.communityId == some id)).length
    { status := 200, success := true, message := ""
      body := .preview community._id community.name community.location
        { residents := residents
          issues := issues
          workers := workers
          securities := securities
          managers :=
            (listCommunityManagers db (fun d => d.assignedCommunity == some id)).length
          amenities := amenities
          commonSpaces := commonSpaces
          payments := payments
          subscriptions := subscriptions } }

/-- `deleteCommunity`: load the community, read the snapshot, create the backup, run the
cascade, write the audit entry, answer. Every thrown error ends in the `catch` (status 500). -/
def deleteCommunity (env : Env) (db : Db) (req : Req) : Db × Response :=
  let id := req.id
  match getCommunityById db id with
  | none =>
    (db, { status := 404, success := false, message := "Community not found", body := .plain })
  | some community =>
    match env.faults.backupCreate with
    | some msg =>
      (db, { status := 500, success := false, message := "Failed to delete community",
             body := .error msg })
    | none =>
      let backup := newBackup env db req community
      let db1 : Db := { db with backups := db.backups ++ [backup] }
      match deleteCommunityCascade env.faults db1 id with
      | (db2, .error msg) =>
        (db2, { status := 500, success := false, message := "Failed to delete community",
                body := .error msg })
      | (db2, .ok result) =>
        let db3 := (createAuditLog env.faults db2
          { adminId := req.user.id
            adminEmail := req.user.email
            action := "delete_community"
            targetType := "Community"
            targetId := id
            targetName := community.name
            metadata := .delete_community backup._id result.deletedCounts req.reason
              backup.permanentDeleteAt
            ip := req.ip
            userAgent := req.userAgent
            status := "success" }).1
        (db3, { status := 200, success := true
                message := "Community deleted successfully. Can be restored within 30 days."
                body := .deleted result.deletedCounts backup._id backup.permanentDeleteAt })

/-- The order in which `restoreCommunity` reinserts the lists of the snapshot. -/
def restoreOrder : List Coll :=
  [.residents, .issues, .workers, .securities, .managers, .amenities, .commonSpaces, .payments,
   .subscriptions, .visitors, .preapprovals, .notifications, .ads]

/-- The thirteen blocks `if (communityData.xs?.length) { await X.insertMany(xs);
restoredCounts.xs = xs.length }` of `restoreCommunity`, run over the given keys in order.
Returns the state, the counts and the message of the error thrown by a rejected insert, if
any; a rejected insert stops the run (the error is thrown) and keeps what was inserted before
it. -/
def restoreLists (f : Faults) (communityData : CommunityData) :
    List Coll → Db → RestoredCounts → Db × RestoredCounts × Option String
  | [], db, restoredCounts => (db, restoredCounts, none)
  | k :: ks, db, restoredCounts =>
    if (communityData.lists k).length > 0 then
      match insertMany (f.insertMany k) (f.insertDoc k) (db.docs k) (communityData.lists k) with
      | (coll, none) =>
        restoreLists f communityData ks
          { db with docs := fun j => if j = k then coll else db.docs j }
          { restoredCounts with
            lists := fun j =>
              if j = k then some (communityData.lists k).length else restoredCounts.lists j }
      | (coll, some msg) =>
        ({ db with docs := fun j => if j = k then coll else db.docs j }, restoredCounts,
          some msg)
    else restoreLists f communityData ks db restoredCounts

/-- `restoreCommunity`: the four guards, then `Community.create`, the thirteen `insertMany`
blocks, the status update of the backup, the audit entry and the answer. Every thrown error
ends in the `catch` (status 500); what was written before it stays written. -/
def restoreCommunity (env : Env) (db : Db) (req : Req) : Db × Response :=
  let backupId := req.id
  match findBackupById db backupId with
  | none =>
    (db, { status := 404, success := false, message := "Backup not found", body := .plain })
  | some backup =>
    if backup.status = .restored then
      (db, { status := 400, success := false, message := "Community already restored",
             body := .plain })
    else if backup.status = .permanently_deleted then
      (db, { status := 400, success := false
             message := "Backup permanently deleted, cannot restore", body := .plain })
    else if env.now > backup.permanentDeleteAt then
      (db, { status := 400, success := false, message := "Backup expired, cannot restore",
             body := .plain })
    else
      let communityData := backup.communityData
      match Community.create env.faults.communityCreate db.communities
          communityData.community with
      | .error msg =>
        (db, { status := 500, success := false, message := "Failed to restore community",
               body := .error msg })
      | .ok communities =>
        let community := communityData.community
        match restoreLists env.faults communityData restoreOrder
            { db with communities := communities }
            { community := some 1, lists := fun _ => none } with
        | (db1, _, some msg) =>
          (db1, { status := 500, success := false, message := "Failed to restore community",
                  body := .error msg })
        | (db1, restoredCounts, none) =>
          match env.faults.backupSave with
          | some msg =>
            (db1, { status := 500, success := false, message := "Failed to restore community",
                    body := .error msg })
          | none =>
            let saved : Backup :=
              { backup with
                status := .restored, restoredAt := some env.now, restoredBy := some req.user.id }
            let db2 : Db := { db1 with backups := saveBackup saved db1.backups }
            let db3 := (createAuditLog env.faults db2
              { adminId := req.user.id
                adminEmail := req.user.email
                action := "restore_community"
                targetType := "Community"
                targetId := community._id
                targetName := community.name
                metadata := .restore_community backupId restoredCounts
                ip := req.ip
                userAgent := req.userAgent
                status := "success" }).1
            (db3, { status := 200, success := true, message := "Community restored successfully"
                    body := .restored community._id community.name community.location
                      restoredCounts })

/-! ## Predicates used in the statements -/

/-- No `_id` of `docs` is stored in `coll` and no two documents of `docs` share one. -/
def Insertable (coll docs : List Doc) : Prop :=
  (docs.map (fun d => d._id)).Nodup ∧ ∀ d ∈ docs, ∀ e ∈ coll, e._id ≠ d._id

/-- No insert of a restore of `cd` meets a stored or repeated `_id` in `db`. -/
def Restorable (db : Db) (cd : CommunityData) : Prop :=
  (∀ c ∈ db.communities, c._id ≠ cd.community._id) ∧ ∀ k, Insertable (db.docs k) (cd.lists k)

/-- No write of a restore of `cd` is rejected for a reason outside the `_id`s: neither
`Community.create`, nor an `insertMany` that is issued (the list is not empty), nor the insert
of a document of the snapshot, nor `backup.save()`. -/
def NoRestoreFault (f : Faults) (cd : CommunityData) : Prop :=
  f.communityCreate = none ∧ (∀ k, cd.lists k ≠ [] → f.insertMany k = none) ∧
    (∀ k, ∀ d ∈ cd.lists k, f.insertDoc k d = none) ∧ f.backupSave = none

/-- The backup document `restoreCommunity` saves. -/
def markRestored (env : Env) (req : Req) (b : Backup) : Backup :=
  { b with status := .restored, restoredAt := some env.now, restoredBy := some req.user.id }

/-! ## Concrete states used by the evaluations below -/

/-- The community `1`. -/
def sampleCommunity : CommunityDoc := { _id := 1, name := "Green Park", location := "Pune" }

/-- The admin request on id `1` (a community id for delete, a backup id for restore). -/
def sampleReq : Req := { id := 1, user := { id := 7, email := "admin@urbanease.test" } }

/-- A database that holds the collections `docs`, the community `1` and nothing else. -/
def sampleDb (docs : Coll → List Doc) : Db :=
  { communities := [sampleCommunity], docs := docs, interestForms := [], backups := []
    auditLogs := [] }

/-- One CommunitySubscription of community `1`, stored the way
`Manager/subscription.controller.js` creates it: with `communityId` and no `community`. -/
def subscriptionOnly : Coll → List Doc
  | .subscriptions => [{ _id := 10, communityId := some 1 }]
  | _ => []

/-- One Amenity of community `1`. -/
def amenityOnly : Coll → List Doc
  | .amenities => [{ _id := 30, community := some 1 }]
  | _ => []

/-- Three residents and one worker of community `1`. -/
def residentsAndWorker : Coll → List Doc
  | .residents =>
    [{ _id := 11, community := some 1 }, { _id := 12, community := some 1 },
     { _id := 13, community := some 1 }]
  | .workers => [{ _id := 14, community := some 1 }]
  | _ => []

/-- One Notification with `community = 1` that no owner of community `1` lists. -/
def looseNotification : Coll → List Doc
  | .notifications => [{ _id := 20, community := some 1 }]
  | _ => []

/-- The delete request on community `1` at instant `100`, run on `sampleDb docs`. The backup
it creates is the first one, so its id is `1`. -/
def afterDelete (docs : Coll → List Doc) : Db × Response :=
  deleteCommunity { now := 100 } (sampleDb docs) sampleReq

/-- The restore request on backup `1` at instant `200`, run on the state the delete left. -/
def afterRestore (docs : Coll → List Doc) : Db × Response :=
  restoreCommunity { now := 200 } (afterDelete docs).1 sampleReq

/-- The restore request on backup `1` repeated at instant `300`. -/
def afterSecondRestore (docs : Coll → List Doc) : Db × Response :=
  restoreCommunity { now := 300 } (afterRestore docs).1 sampleReq

/-- The delete request on community `1` at instant `100` when the `deleteMany` on Ad is
rejected: the backup is stored, the cascade throws, the community stays. -/
def afterFailedCascade : Db × Response :=
  deleteCommunity
    { now := 100
      faults := { deleteMany := fun k => if k = .ads then some "connection lost" else none } }
    (sampleDb residentsAndWorker) sampleReq

/-- The `willDelete` object of a preview response. -/
def Response.willDelete? (r : Response) : Option WillDelete :=
  match r.body with
  | .preview _ _ _ w => some w
  | _ => none

/-- The `restored` object of a restore response. -/
def Response.restored? (r : Response) : Option RestoredCounts :=
  match r.body with
  | .restored _ _ _ rc => some rc
  | _ => none

/-- The `deleted` object of a delete response. -/
def Response.deleted? (r : Response) : Option (Coll → Nat) :=
  match r.body with
  | .deleted d _ _ => some d
  | _ => none

/-- The `backup.id` of a delete response. -/
def Response.backupId? (r : Response) : Option ObjectId :=
  match r.body with
  | .deleted _ b _ => some b
  | _ => none

/-- The `community._id` of a restore response. -/
def Response.communityId? (r : Response) : Option ObjectId :=
  match r.body with
  | .restored c _ _ _ => some c
  | _ => none

/-! ## Further predicates and states -/

/-- The notification ids `deleteCommunityCascade` collects from the four owner reads. -/
def cascadeNotificationIds (db : Db) (communityId : ObjectId) : List ObjectId :=
  (collectNotificationIds ((db.docs .residents).filter (fun d => d.community == some communityId)) ++
    collectNotificationIds
      ((db.docs .managers).filter (fun d => d.assignedCommunity == some communityId)) ++
    collectNotificationIds ((db.docs .workers).filter (fun d => d.community == some communityId)) ++
    collectNotificationIds
      ((db.docs .securities).filter (fun d => d.community == some communityId))).foldl setAdd []

/-- No `deleteMany` of the cascade and no `findByIdAndDelete` is rejected. -/
def NoCascadeFault (f : Faults) : Prop :=
  (∀ k, f.deleteMany k = none) ∧ f.communityDelete = none

/-- The number of records of collection `k` stored in `before` that are not stored in
`after`. -/
def removedCount (before after : Db) (k : Coll) : Nat :=
  ((before.docs k).filter (fun d => decide (d ∉ after.docs k))).length

/-- A Worker of community `1` stored with `communityAssigned` only, which lists the
Notification `20`, and that Notification. -/
def legacyWorker : Coll → List Doc
  | .workers => [{ _id := 14, communityAssigned := some 1, notifications := [20] }]
  | .notifications => [{ _id := 20 }]
  | _ => []

/-- Community `c` has no dependent record: no stored record matches a snapshot read or a
cascade filter of `c`. -/
def NoDependents (db : Db) (c : ObjectId) : Prop :=
  ∀ k, ∀ d ∈ db.docs k, snapshotFilter c k d = false ∧ cascadeFilter c k d = false

/-- The `backup.canRestoreUntil` of a delete response. -/
def Response.canRestoreUntil? (r : Response) : Option Date :=
  match r.body with
  | .deleted _ _ u => some u
  | _ => none

/-- The environment `env` in which `AdminAuditLog.create` is rejected with `msg`. -/
def withAuditFault (env : Env) (msg : String) : Env :=
  { env with faults := { env.faults with auditCreate := some msg } }

/-- The environment `env` in which `AdminAuditLog.create` is accepted. -/
def withoutAuditFault (env : Env) : Env :=
  { env with faults := { env.faults with auditCreate := none } }

/-- The two states hold the same records in every collection other than the audit log. -/
def SameData (a b : Db) : Prop :=
  a.communities = b.communities ∧ a.docs = b.docs ∧ a.interestForms = b.interestForms ∧
    a.backups = b.backups

/-- An audit entry for a delete of community `1` by the sample admin. -/
def sampleEntry : AuditLog :=
  { adminId := 7, adminEmail := "admin@urbanease.test", action := "delete_community"
    targetType := "Community", targetId := 1, targetName := "Green Park"
    metadata := .delete_community 1 (fun _ => 0) none (100 + thirtyDays)
    ip := "", userAgent := "", status := "success" }

/-- The value a cascade resolved to (the all-zero result when it threw). -/
def CascadeResult.ofExcept : Except String CascadeResult → CascadeResult
  | .ok r => r
  | .error _ => { deletedCommunityId := none, deletedCounts := fun _ => 0 }

/-! ## `middleware/rbac.js` and `routes/adminRouter.js` -/

/-- What the property read `PERMISSIONS[role]` yields: the array of an own key, a property
inherited from `Object.prototype` (a function or an object, truthy and without `includes`),
or `undefined`. -/
inductive RoleEntry
  | permissions (list : List String)
  | inherited
  | undefined
  deriving DecidableEq, Repr

/-- The property names every object literal inherits from `Object.prototype`. -/
def objectPrototypeKeys : List String :=
  ["constructor", "__defineGetter__", "__defineSetter__", "hasOwnProperty",
   "__lookupGetter__", "__lookupSetter__", "isPrototypeOf", "propertyIsEnumerable",
   "toString", "valueOf", "__proto__", "toLocaleString"]

/-- The permission matrix `PERMISSIONS`, read as `PERMISSIONS[role]`. -/
def PERMISSIONS (role : String) : RoleEntry :=
  if role = "super-admin" then .permissions ["*"]
  else if role = "admin" then
    .permissions
      ["read:communities", "read:users", "read:applications", "read:payments", "read:issues",
       "read:analytics", "write:communities", "write:users", "write:applications",
       "write:issues", "delete:users", "delete:issues"]
  else if role = "support" then
    .permissions
      ["read:communities", "read:users", "read:applications", "read:issues", "write:issues",
       "write:applications"]
  else if role ∈ objectPrototypeKeys then .inherited
  else .undefined

/-- The first element of `permission.split(':')`. -/
def actionOf (permission : String) : String :=
  String.mk (permission.toList.takeWhile (fun ch => ch != ':'))

/-- `hasPermission(role, permission)`; an inherited property is not an array, so the call of
`rolePermissions.includes` throws a `TypeError`. -/
def hasPermission (role permission : String) : Except String Bool :=
  match PERMISSIONS role with
  | .inherited => .error "rolePermissions.includes is not a function"
  | entry =>
    let rolePermissions : List String :=
      match entry with
      | .permissions list => list
      | _ => []
    if rolePermissions.contains "*" then .ok true
    else if rolePermissions.contains permission then .ok true
    else
      let wildcardPermission := actionOf permission ++ ":*"
      if rolePermissions.contains wildcardPermission then .ok true else .ok false

/-- What the middleware returned by `requirePermission` does with a request. -/
inductive GuardResult
  | next
  | forbidden (status : Nat) (success : Bool) (message required userRole : String)
  | throws (error : String)
  deriving DecidableEq, Repr

/-- The role the guard works with, `req.user?.role || 'admin'`: a missing or empty role is
replaced by `'admin'`. -/
def effectiveRole (role : Option String) : String :=
  match role with
  | none => "admin"
  | some r => if r = "" then "admin" else r

/-- `requirePermission(permission)` applied to a request whose `req.user?.role` is `role`. -/
def requirePermission (permission : String) (role : Option String) : GuardResult :=
  let userRole := effectiveRole role
  match hasPermission userRole permission with
  | .error e => .throws e
  | .ok false => .forbidden 403 false "Insufficient permissions" permission userRole
  | .ok true => .next

/-- A middleware mounted on a route of the admin router. -/
inductive Middleware
  | requirePermission (permission : String)
  | upload
  | validatePasswordChange
  deriving DecidableEq, Repr

/-- A route of `AdminRouter`: method, path, middlewares and the name of the handler. -/
structure Route where
  method : String
  path : String
  middleware : List Middleware
  handler : String
  deriving DecidableEq, Repr

/-- The routes mounted on `AdminRouter`, in order. -/
def AdminRouter : List Route :=
  [ { method := "GET", path := "/api/interests", middleware := [], handler := "getAllApplications" },
    { method := "GET", path := "/interests", middleware := [], handler := "getAllApplications" },
    { method := "POST", path := "/interests/:id/approve", middleware := [],
      handler := "approveApplication" },
    { method := "POST", path := "/interests/:id/reject", middleware := [],
      handler := "rejectApplication" },
    { method := "POST", path := "/interests/:id/resend-link", middleware := [],
      handler := "resendPaymentLink" },
    { method := "GET", path := "/api/dashboard", middleware := [], handler := "getDashboard" },
    { method := "GET", path := "/api/communities/overview", middleware := [],
      handler := "getCommunitiesOverview" },
    { method := "GET", path := "/api/communities",
      middleware := [.requirePermission "read:communities"], handler := "getAllCommunities" },
    { method := "GET", path := "/api/communities/stats",
      middleware := [.requirePermission "read:communities"], handler := "getCommunityStats" },
    { method := "GET", path := "/api/communities/:id/delete-preview",
      middleware := [.requirePermission "delete:critical"], handler := "getDeletePreview" },
    { method := "GET", path := "/api/communities/:id",
      middleware := [.requirePermission "read:communities"], handler := "getCommunityById" },
    { method := "POST", path := "/api/communities",
      middleware := [.requirePermission "write:communities"], handler := "createCommunity" },
    { method := "PUT", path := "/api/communities/:id",
      middleware := [.requirePermission "write:communities"], handler := "updateCommunity" },
    { method := "DELETE", path := "/api/communities/:id",
      middleware := [.requirePermission "delete:critical"], handler := "deleteCommunity" },
    { method := "POST", path := "/api/communities/:backupId/restore",
      middleware := [.requirePermission "delete:critical"], handler := "restoreCommunity" },
    { method := "GET", path := "/api/community-managers",
      middleware := [.requirePermission "read:users"], handler := "getCommunityManagers" },
    { method := "GET", path := "/api/payments",
      middleware := [.requirePermission "read:payments"], handler := "getPayments" },
    { method := "GET", path := "/api/subscription-plans", middleware := [],
      handler := "getAllPlans" },
    { method := "GET", path := "/api/subscription-plans/:id", middleware := [],
      handler := "getPlanById" },
    { method := "POST", path := "/api/subscription-plans", middleware := [],
      handler := "createPlan" },
    { method := "PUT", path := "/api/subscription-plans/:id", middleware := [],
      handler := "updatePlan" },
    { method := "DELETE", path := "/api/subscription-plans/:id", middleware := [],
      handler := "deletePlan" },
    { method := "GET", path := "/api/managers",
      middleware := [.requirePermission "read:users"], handler := "getManagersList" },
    { method := "POST", path := "/api/communities/bulk-update",
      middleware := [.requirePermission "write:communities"], handler := "bulkUpdateStatus" },
    { method := "GET", path := "/api/admin/activity",
      middleware := [.requirePermission "read:analytics"], handler := "getAdminActivity" },
    { method := "GET", path := "/api/admin/security/failed-logins",
      middleware := [.requirePermission "read:analytics"], handler := "getFailedLogins" },
    { method := "GET", path := "/api/profile", middleware := [], handler := "getProfile" },
    { method := "POST", path := "/api/profile/update", middleware := [.upload],
      handler := "updateProfile" },
    { method := "POST", path := "/api/profile/change-password",
      middleware := [.validatePasswordChange], handler := "changePassword" } ]

/-- `Object.keys(PERMISSIONS)`. -/
def permissionKeys : List String := ["super-admin", "admin", "support"]

/-! ## `middleware/validation.js` -/

/-- ASCII lower-casing: the case folding of a regular expression with the `i` flag and
without the `u` flag never identifies a non-ASCII character with an ASCII one. -/
def asciiLower (c : Char) : Char :=
  if 'A' ≤ c ∧ c ≤ 'Z' then Char.ofNat (c.toNat + 32) else c

/-- The class `\s` (and the characters removed by `trim`): white space and line
terminators. -/
def isJsSpace (c : Char) : Bool :=
  c = ' ' || c = '\t' || c = '\n' || c = '\r' || c.toNat = 0x0B || c.toNat = 0x0C ||
    c.toNat = 0xA0 || c.toNat = 0x1680 || (0x2000 ≤ c.toNat && c.toNat ≤ 0x200A) ||
    c.toNat = 0x2028 || c.toNat = 0x2029 || c.toNat = 0x202F || c.toNat = 0x205F ||
    c.toNat = 0x3000 || c.toNat = 0xFEFF

/-- The class `\w`: ASCII letters, digits and the underscore. -/
def isWordChar (c : Char) : Bool :=
  ('a' ≤ c && c ≤ 'z') || ('A' ≤ c && c ≤ 'Z') || ('0' ≤ c && c ≤ '9') || c = '_'

/-- Whether `pat` (given in lower case) matches at the start of `s`, ignoring case. -/
def startsWithIgnoreCase : List Char → List Char → Bool
  | [], _ => true
  | _ :: _, [] => false
  | p :: ps, c :: cs => asciiLower c == p && startsWithIgnoreCase ps cs

/-- The length of the match of `/on\w+\s*=/i` at the start of `s`, if there is one: `on`,
the longest run of word characters (at least one), the longest run of white space, `=`. -/
def matchEventHandler (s : List Char) : Option Nat :=
  if startsWithIgnoreCase ['o', 'n'] s then
    let rest := s.drop 2
    let word := rest.takeWhile isWordChar
    let rest1 := rest.drop word.length
    let space := rest1.takeWhile isJsSpace
    let rest2 := rest1.drop space.length
    match rest2 with
    | '=' :: _ => if word.length > 0 then some (2 + word.length + space.length + 1) else none
    | _ => none
  else none

/-- `.replace(/regex/g, '')` for a regular expression whose match at a position, if any, has
the length `matchAt` gives: scanning from the left, a match is dropped and the scan goes on
behind it. `skip` counts the characters of the current match that are still to be dropped. -/
def removeMatches (matchAt : List Char → Option Nat) : Nat → List Char → List Char
  | _, [] => []
  | skip + 1, _ :: cs => removeMatches matchAt skip cs
  | 0, c :: cs =>
    match matchAt (c :: cs) with
    | some (n + 1) => removeMatches matchAt n cs
    | _ => c :: removeMatches matchAt 0 cs

/-- The match of `/javascript:/i` at the start of `s`. -/
def matchJavascript (s : List Char) : Option Nat :=
  if startsWithIgnoreCase "javascript:".toList s then some 11 else none

/-- `String.prototype.trim`. -/
def jsTrim (s : List Char) : List Char :=
  ((s.dropWhile isJsSpace).reverse.dropWhile isJsSpace).reverse

/-- `sanitizeTextInput(text)` for a string `text`. -/
def sanitizeTextInput (text : String) : String :=
  String.mk
    (jsTrim
      (removeMatches matchEventHandler 0
        (removeMatches matchJavascript 0
          (text.toList.filter (fun c => c != '<' && c != '>')))))

/-- Whether `s` contains `javascript:` in some letter case. -/
def containsJavascript : List Char → Bool
  | [] => false
  | c :: cs => startsWithIgnoreCase "javascript:".toList (c :: cs) || containsJavascript cs

/-! ## `controllers/Manager/helpers.js` and `controllers/Manager/spaces.controller.js` -/

/-- A value of a JSON request body, or `undefined` for a key that is absent. -/
inductive JsValue
  | undefined
  | null
  | bool (b : Bool)
  | number (n : Int)
  | string (s : String)
  deriving DecidableEq, Repr

/-- Truthiness of a value (`!value` is its negation). -/
def JsValue.truthy : JsValue → Bool
  | .undefined => false
  | .null => false
  | .bool b => b
  | .number n => n != 0
  | .string s => s != ""

/-- Whether the value is a string whose `trim()` is empty. -/
def JsValue.blankString : JsValue → Bool
  | .string s => s.toList.all isJsSpace
  | _ => false

/-- The second argument of `validateFields`: the Express response, or some other object
(which has no `status` method). -/
inductive ResArg
  | response
  | other
  deriving DecidableEq, Repr

/-- The answer written on the Express response. -/
structure Reply where
  status : Nat
  success : Bool
  message : String
  deriving DecidableEq, Repr

/-- `validateFields(fields, res)`: collects the keys of `fields` whose value is falsy or a
blank string; when there are any it calls `res.status(400).json(...)` and returns `false`,
otherwise it returns `true`. The call `res.status(...)` throws a `TypeError` when `res` is
not a response. The result is the returned value and the reply that was sent, if any. -/
def validateFields (fields : List (String × JsValue)) (res : ResArg) :
    Except String (Bool × Option Reply) :=
  let missingFields :=
    (fields.filter (fun kv => !kv.2.truthy || kv.2.blankString)).map (fun kv => kv.1)
  if missingFields.length > 0 then
    match res with
    | .response =>
      .ok (false,
        some { status := 400, success := false
               message := "Missing required fields: " ++ ", ".intercalate missingFields })
    | .other => .error "res.status is not a function"
  else .ok (true, none)

/-- A store operation issued by `createSpace`. -/
inductive SpaceOp
  | find (spaceName : JsValue) (community : ObjectId)
  | create (type name : String) (community : ObjectId)
  deriving DecidableEq, Repr

/-- The request of `createSpace`: `req.body` as its list of entries and `req.user.community`. -/
structure SpaceReq where
  body : List (String × JsValue)
  community : ObjectId

/-- `req.body[key]`. -/
def SpaceReq.field (req : SpaceReq) (key : String) : JsValue :=
  match req.body.find? (fun kv => kv.1 == key) with
  | some kv => kv.2
  | none => .undefined

/-- What a run of `createSpace` did: the store operations it issued, in order, and the reply. -/
structure SpaceOutcome where
  ops : List SpaceOp
  reply : Reply
  deriving DecidableEq, Repr

/-- `value.trim()` for a value read from the body: a `TypeError` unless it is a string. -/
def JsValue.trim : JsValue → Except String String
  | .string s => .ok (String.mk (jsTrim s.toList))
  | _ => .error "Cannot read properties of undefined (reading 'trim')"

/-- `createSpace`. `validateFields` is called with `req.body` as `fields` and the array
`["spaceType", "spaceName"]` as `res`; its result is a boolean, so `validation.error` is
`undefined`. `existing` is the number of documents `Amenity.find` returns. Every thrown error
ends in the `catch`, which answers 500 'Internal server error'. -/
def createSpace (existing : JsValue → ObjectId → Nat) (req : SpaceReq) : SpaceOutcome :=
  let internalError : Reply :=
    { status := 500, success := false, message := "Internal server error" }
  let spaceType := req.field "spaceType"
  let spaceName := req.field "spaceName"
  match validateFields req.body .other with
  | .error _ => { ops := [], reply := internalError }
  | .ok _ =>
    let findOp := SpaceOp.find spaceName req.community
    if existing spaceName req.community > 0 then
      { ops := [findOp]
        reply := { status := 400, success := false
                   message := "A space with this name already exists" } }
    else
      match spaceType.trim, spaceName.trim with
      | .ok type, .ok name =>
        if (req.field "bookingRules").truthy ∧ (req.field "bookingRules").trim.toOption.isNone
        then { ops := [findOp], reply := internalError }
        else
          { ops := [findOp, .create type name req.community]
            reply := { status := 201, success := true, message := "Space created successfully" } }
      | _, _ => { ops := [findOp], reply := internalError }

/-! ## `Client/src/Services/adminApiClient.js` -/

/-- What `response.json()` resolves to: JSON `null`, or another value, with its `message`
property if it has one. -/
inductive JsonBody
  | null
  | value (message : Option String)
  deriving DecidableEq, Repr

/-- What one call of `fetch` does: it rejects (network error, an error without `status`), or
it resolves with a response of the given status whose body parses to JSON (`json = some`) or
does not parse. -/
inductive FetchResult
  | networkError
  | response (status : Nat) (json : Option JsonBody)
  deriving DecidableEq, Repr

/-- What `request` did besides settling its promise. -/
inductive ClientEvent
  | fetch
  | handleUnauthorized
  | sleep (ms : Nat)
  deriving DecidableEq, Repr

/-- How the promise of `request` settles: with the parsed data, or rejected with an error
(its message and its `status` property, if set). -/
inductive Settled
  | resolved
  | rejected (message : String) (status : Option Nat)
  deriving DecidableEq, Repr

/-- `this.maxRetries`. -/
def maxRetries : Nat := 3

/-- `this.retryDelay`. -/
def retryDelay : Nat := 1000

/-- `isRetryableError(status)`: `!status || status >= 500`. -/
def isRetryableError (status : Nat) : Bool :=
  status = 0 || status ≥ 500

/-- `getErrorMessage(status)` without a default message. -/
def getErrorMessage (status : Nat) : String :=
  if status = 400 then "Invalid request. Please check your input."
  else if status = 401 then "Session expired. Please log in again."
  else if status = 403 then "You do not have permission to perform this action."
  else if status = 404 then "Resource not found."
  else if status = 409 then "Resource already exists or conflict detected."
  else if status = 429 then "Too many requests. Please wait a moment and try again."
  else if status = 500 then "Server error. Please try again later."
  else if status = 502 then "Service temporarily unavailable."
  else if status = 503 then "Service temporarily unavailable."
  else "An error occurred"

/-- The body of `request(endpoint, options, retries)`, with the recursion bounded by `fuel`.
`server n` is what the call of `fetch` made with `retries = n` does. An error thrown inside
the `try` reaches the `catch`, which retries when the error has no `status` and
`retries < maxRetries`; the promise of a retry is returned as it is. On a response that is not
OK, `errorData` is the parsed body, or `{}` when it does not parse; when it is `null`, reading
`errorData.message` throws a `TypeError`, which has no `status`. -/
def requestWith (server : Nat → FetchResult) : Nat → Nat → List ClientEvent × Settled
  | 0, _ => ([], .rejected "out of fuel" none)
  | fuel + 1, retries =>
    let next : Option (List ClientEvent × Settled) :=
      if retries < maxRetries then some (requestWith server fuel (retries + 1)) else none
    let delay := retryDelay * 2 ^ retries
    let catchBlock (events : List ClientEvent) (message : String) (status : Option Nat) :
        List ClientEvent × Settled :=
      match status, next with
      | none, some r => (events ++ [.sleep delay] ++ r.1, r.2)
      | _, _ => (events, .rejected message status)
    match server retries with
    | .networkError => catchBlock [.fetch] "Failed to fetch" none
    | .response status json =>
      if status = 401 then catchBlock [.fetch, .handleUnauthorized] "Unauthorized" none
      else if ¬ (200 ≤ status ∧ status ≤ 299) then
        match isRetryableError status, next with
        | true, some r => ([.fetch, .sleep delay] ++ r.1, r.2)
        | _, _ =>
          match json with
          | some .null =>
            catchBlock [.fetch] "Cannot read properties of null (reading 'message')" none
          | some (.value (some m)) =>
            catchBlock [.fetch] (if m = "" then getErrorMessage status else m) (some status)
          | _ => catchBlock [.fetch] (getErrorMessage status) (some status)
      else
        match json with
        | some _ => ([.fetch], .resolved)
        | none => catchBlock [.fetch] "Unexpected end of JSON input" none

/-- `request(endpoint, options, retries)`: every retry raises `retries` by one and none is
made from `maxRetries` on, so `maxRetries - retries + 1` attempts are enough. -/
def request (server : Nat → FetchResult) (retries : Nat) : List ClientEvent × Settled :=
  requestWith server (maxRetries - retries + 1) retries

/-- The number of calls of `fetch` among the events. -/
def fetchCount (events : List ClientEvent) : Nat :=
  (events.filter (fun e => e == .fetch)).length

/-! ## `controllers/Manager/community.controller.js` -/

/-- A flat generated for a block. -/
structure Flat where
  flatNumber : String
  floor : Nat
  status : String
  deriving DecidableEq, Repr

/-- A block of the request body: `{ name, totalFloors, flatsPerFloor }`. -/
structure BlockConfig where
  name : String
  totalFloors : Nat
  flatsPerFloor : Nat
  deriving DecidableEq, Repr

/-- A generated block: the configuration and its flats. -/
structure GeneratedBlock where
  name : String
  totalFloors : Nat
  flatsPerFloor : Nat
  flats : List Flat
  deriving DecidableEq, Repr

/-- The two nested loops of `setupCommunityStructure` for one block: `floor` runs from `1`
to `totalFloors`, `flat` from `1` to `flatsPerFloor`, and each step pushes one flat. -/
def generateFlats (name : String) (totalFloors flatsPerFloor : Nat) : List Flat :=
  (List.range' 1 totalFloors).flatMap fun floor =>
    (List.range' 1 flatsPerFloor).map fun flat =>
      let flatNumberSuffix := floor * 100 + flat
      { flatNumber := name ++ "-" ++ toString flatNumberSuffix, floor := floor
        status := "Vacant" }

/-- The function mapped over `blocks` in `setupCommunityStructure`. -/
def generateBlock (block : BlockConfig) : GeneratedBlock :=
  { name := block.name, totalFloors := block.totalFloors, flatsPerFloor := block.flatsPerFloor
    flats := generateFlats block.name block.totalFloors block.flatsPerFloor }

/-- The value of a decimal digit character. -/
def digitValue (c : Char) : Nat := c.toNat - 48

/-- The number a list of decimal digit characters denotes. -/
def digitsValue (ds : List Char) : Nat := ds.foldl (fun a c => 10 * a + digitValue c) 0

/-! ## Further concrete states -/

/-- One Resident of community `1` and one Resident of community `2`. -/
def twoResidents : Coll → List Doc
  | .residents => [{ _id := 11, community := some 1 }, { _id := 21, community := some 2 }]
  | _ => []

/-- A database with the communities `1` and `2` and one resident each. -/
def twoCommunities : Db :=
  { communities := [sampleCommunity, { _id := 2, name := "Lake View", location := "Pune" }]
    docs := twoResidents, interestForms := [], backups := [], auditLogs := [] }

/-! ## The store calls of `deleteCommunity`, and the states that hold its backups -/

/-- A call on the document store, as the handlers issue them. -/
inductive StoreOp
  | getCommunityById (id : ObjectId)
  | find (k : Coll) (id : ObjectId)
  | createBackup (originalCommunityId : ObjectId)
  | deleteMany (k : Coll) (id : ObjectId)
  | findByIdAndDelete (id : ObjectId)
  | createAuditLog (action : String)
  deriving DecidableEq, Repr

/-- The order of the thirteen snapshot reads in the `Promise.all` of `deleteCommunity`. -/
def snapshotOrder : List Coll :=
  [.residents, .issues, .workers, .securities, .managers, .amenities, .commonSpaces, .payments,
   .subscriptions, .visitors, .preapprovals, .notifications, .ads]

/-- The store calls of `deleteCommunityCascade(communityId)` in the order in which they are
issued: the four owner reads, the twelve `deleteMany` of the `Promise.all`, and, when none of
them is rejected, the `deleteMany` on Notifications if ids were collected and then
`findByIdAndDelete`. -/
def deleteCommunityCascadeOps (f : Faults) (db : Db) (communityId : ObjectId) : List StoreOp :=
  let reads : List StoreOp :=
    [.find .residents communityId, .find .managers communityId, .find .workers communityId,
     .find .securities communityId]
  let deletes : List StoreOp := cascadeOrder.map (fun k => .deleteMany k communityId)
  match cascadeOrder.findSome? f.deleteMany with
  | some _ => reads ++ deletes
  | none =>
    if (cascadeNotificationIds db communityId).length > 0 then
      match f.deleteMany .notifications with
      | some _ => reads ++ deletes ++ [.deleteMany .notifications communityId]
      | none =>
        reads ++ deletes ++
          [.deleteMany .notifications communityId, .findByIdAndDelete communityId]
    else reads ++ deletes ++ [.findByIdAndDelete communityId]

/-- The handler `deleteCommunity` together with the store calls it issues, in order: the load
of the community, then (only when it was found) the thirteen snapshot reads, the creation of
the backup, the calls of the cascade and, after a cascade that did not throw, the audit
entry. The state and the response are those of `deleteCommunity`. -/
def deleteCommunityTraced (env : Env) (db : Db) (req : Req) : List StoreOp × Db × Response :=
  let id := req.id
  match getCommunityById db id with
  | none =>
    ([.getCommunityById id], db,
      { status := 404, success := false, message := "Community not found", body := .plain })
  | some community =>
    let reads : List StoreOp := snapshotOrder.map (fun k => .find k id)
    match env.faults.backupCreate with
    | some msg =>
      ([.getCommunityById id] ++ reads ++ [.createBackup id], db,
        { status := 500, success := false, message := "Failed to delete community",
          body := .error msg })
    | none =>
      let backup := newBackup env db req community
      let db1 : Db := { db with backups := db.backups ++ [backup] }
      let ops : List StoreOp :=
        [.getCommunityById id] ++ reads ++ [.createBackup id] ++
          deleteCommunityCascadeOps env.faults db1 id
      match deleteCommunityCascade env.faults db1 id with
      | (db2, .error msg) =>
        (ops, db2, { status := 500, success := false, message := "Failed to delete community",
                     body := .error msg })
      | (db2, .ok result) =>
        let db3 := (createAuditLog env.faults db2
          { adminId := req.user.id
            adminEmail := req.user.email
            action := "delete_community"
            targetType := "Community"
            targetId := id
            targetName := community.name
            metadata := .delete_community backup._id result.deletedCounts req.reason
              backup.permanentDeleteAt
            ip := req.ip
            userAgent := req.userAgent
            status := "success" }).1
        (ops ++ [.createAuditLog "delete_community"], db3,
          { status := 200, success := true
            message := "Community deleted successfully. Can be restored within 30 days."
            body := .deleted result.deletedCounts backup._id backup.permanentDeleteAt })

/-- The states the store can be in. `DeletedCommunityBackup.create` in `deleteCommunity` is the
only call of the sources that stores a new backup, and `backup.save()` in `restoreCommunity`
the only one that changes a stored one; so every state is reached from a state without backups
by runs of the two handlers and by steps (other handlers, a retention sweep) after which
every stored backup carries the snapshot of a backup that was stored before. -/
inductive Reachable : Db → Prop
  | init (db : Db) (h : db.backups = []) : Reachable db
  | delete (env : Env) (db : Db) (req : Req) (h : Reachable db) :
    Reachable (deleteCommunity env db req).1
  | restore (env : Env) (db : Db) (req : Req) (h : Reachable db) :
    Reachable (restoreCommunity env db req).1
  | other (db db2 : Db) (h : Reachable db)
    (hb : ∀ b ∈ db2.backups, ∃ b0 ∈ db.backups, b.communityData = b0.communityData) :
    Reachable db2

/-- The reference by which the snapshot reads of `deleteCommunity` collect a record:
`assignedCommunity` for CommunityManager and `community` for every other collection. -/
def communityReference (k : Coll) (d : Doc) : Option ObjectId :=
  match k with
  | .managers => d.assignedCommunity
  | _ => d.community

/-- Every record of the snapshot of `b` refers to the community of the snapshot. -/
def SnapshotOwned (b : Backup) : Prop :=
  ∀ k, ∀ d ∈ b.communityData.lists k,
    communityReference k d = some b.communityData.community._id

/-! ## Lemmas on the store operations -/

theorem le_foldr_max (ids : List ObjectId) (x : ObjectId) (h : x ∈ ids) :
    x ≤ ids.foldr max 0 := by
  induction ids with
  | nil => simp at h
  | cons a as ih =>
    simp only [List.foldr_cons]
    rcases List.mem_cons.mp h with rfl | h
    · exact le_max_left _ _
    · exact le_trans (ih h) (le_max_right _ _)

theorem freshId_not_mem (ids : List ObjectId) : freshId ids ∉ ids := by
  intro h
  have := le_foldr_max ids _ h
  unfold freshId at this
  exact Nat.not_succ_le_self _ this

theorem getCommunityById_id (db : Db) (id : ObjectId) (c : CommunityDoc)
    (h : getCommunityById db id = some c) : c._id = id := by
  have := List.find?_some h
  simpa using this

theorem find?_append_fresh (bs : List Backup) (b : Backup)
    (h : b._id ∉ bs.map (fun x => x._id)) :
    (bs ++ [b]).find? (fun x => x._id == b._id) = some b := by
  induction bs with
  | nil => simp
  | cons x xs ih =>
    simp only [List.map_cons, List.mem_cons, not_or] at h
    have hx : (x._id == b._id) = false := by
      simp only [beq_eq_false_iff_ne, ne_eq]
      exact fun e => h.1 e.symm
    simp only [List.cons_append, List.find?_cons, hx]
    exact ih h.2

theorem createAuditLog_communities (f : Faults) (db : Db) (e : AuditLog) :
    (createAuditLog f db e).1.communities = db.communities := by
  unfold createAuditLog; split <;> rfl

theorem createAuditLog_docs (f : Faults) (db : Db) (e : AuditLog) :
    (createAuditLog f db e).1.docs = db.docs := by
  unfold createAuditLog; split <;> rfl

theorem createAuditLog_backups (f : Faults) (db : Db) (e : AuditLog) :
    (createAuditLog f db e).1.backups = db.backups := by
  unfold createAuditLog; split <;> rfl

theorem deleteCommunityCascade_backups (f : Faults) (db : Db) (c : ObjectId) :
    (deleteCommunityCascade f db c).1.backups = db.backups := by
  unfold deleteCommunityCascade
  simp only
  repeat' split
  all_goals rfl

theorem insertOrdered_fst_of_ok (reject : Doc → Option String) (docs : List Doc) :
    ∀ coll : List Doc, (insertOrdered reject coll docs).2 = none →
      (insertOrdered reject coll docs).1 = coll ++ docs := by
  induction docs with
  | nil => intro coll _; simp [insertOrdered]
  | cons d ds ih =>
    intro coll h
    unfold insertOrdered at h ⊢
    split at h
    · simp at h
    · rename_i hany
      simp only [hany, Bool.false_eq_true, if_false]
      cases hrej : reject d with
      | some msg => simp [hrej] at h
      | none =>
        simp only [hrej] at h ⊢
        rw [ih _ h]
        simp

theorem insertOrdered_ok_iff (reject : Doc → Option String) (docs : List Doc) :
    ∀ coll : List Doc, (insertOrdered reject coll docs).2 = none ↔
      Insertable coll docs ∧ ∀ d ∈ docs, reject d = none := by
  induction docs with
  | nil => intro coll; simp [insertOrdered, Insertable]
  | cons d ds ih =>
    intro coll
    unfold insertOrdered
    by_cases hany : coll.any (fun e => e._id == d._id) = true
    · simp only [hany, if_true]
      constructor
      · intro h; simp at h
      · intro h
        exfalso
        obtain ⟨e, he, hed⟩ := List.any_eq_true.mp hany
        exact h.1.2 d (List.mem_cons_self _ _) e he (by simpa using hed)
    · simp only [hany, Bool.false_eq_true, if_false]
      have hfree : ∀ e ∈ coll, e._id ≠ d._id := by
        intro e he hed
        exact hany (List.any_eq_true.mpr ⟨e, he, by simpa using hed⟩)
      cases hrej : reject d with
      | some msg =>
        simp only
        constructor
        · intro h; simp at h
        · intro h
          have := h.2 d (List.mem_cons_self _ _)
          rw [hrej] at this
          simp at this
      | none =>
        simp only
        rw [ih]
        unfold Insertable
        constructor
        · rintro ⟨⟨hnd, hdis⟩, hrest⟩
          refine ⟨⟨?_, ?_⟩, ?_⟩
          · simp only [List.map_cons, List.nodup_cons]
            refine ⟨?_, hnd⟩
            intro hmem
            obtain ⟨x, hx, hxd⟩ := List.mem_map.mp hmem
            exact hdis x hx d (by simp) hxd.symm
          · intro x hx e he
            rcases List.mem_cons.mp hx with rfl | hx
            · exact hfree e he
            · exact hdis x hx e (by simp [he])
          · intro x hx
            rcases List.mem_cons.mp hx with rfl | hx
            · exact hrej
            · exact hrest x hx
        · rintro ⟨⟨hnd, hdis⟩, hrest⟩
          simp only [List.map_cons, List.nodup_cons] at hnd
          refine ⟨⟨hnd.2, ?_⟩, fun x hx => hrest x (List.mem_cons_of_mem _ hx)⟩
          intro x hx e he
          rcases List.mem_append.mp he with he | he
          · exact hdis x (List.mem_cons_of_mem _ hx) e he
          · simp only [List.mem_singleton] at he
            subst he
            intro hed
            exact hnd.1 (List.mem_map.mpr ⟨x, hx, hed.symm⟩)

theorem insertMany_fst_of_ok (fault : Option String) (reject : Doc → Option String)
    (coll docs : List Doc) (h : (insertMany fault reject coll docs).2 = none) :
    (insertMany fault reject coll docs).1 = coll ++ docs := by
  cases fault with
  | some msg => simp [insertMany] at h
  | none => exact insertOrdered_fst_of_ok reject docs coll h

theorem insertMany_ok_iff (fault : Option String) (reject : Doc → Option String)
    (coll docs : List Doc) :
    (insertMany fault reject coll docs).2 = none ↔
      fault = none ∧ Insertable coll docs ∧ ∀ d ∈ docs, reject d = none := by
  cases fault with
  | some msg => simp [insertMany]
  | none =>
    simp only [insertMany, true_and]
    exact insertOrdered_ok_iff reject docs coll

theorem restoreLists_frame (f : Faults) (cd : CommunityData) (ks : List Coll) :
    ∀ (db : Db) (rc : RestoredCounts),
      (restoreLists f cd ks db rc).1.communities = db.communities ∧
      (restoreLists f cd ks db rc).1.backups = db.backups ∧
      (restoreLists f cd ks db rc).1.auditLogs = db.auditLogs ∧
      (restoreLists f cd ks db rc).1.interestForms = db.interestForms := by
  induction ks with
  | nil => intro db rc; simp [restoreLists]
  | cons k ks ih =>
    intro db rc
    unfold restoreLists
    split
    · split
      · rename_i coll _
        exact ih _ _
      · simp
    · exact ih _ _

theorem restoreLists_ok_iff (f : Faults) (cd : CommunityData) (ks : List Coll)
    (hnd : ks.Nodup) :
    ∀ (db : Db) (rc : RestoredCounts),
      (restoreLists f cd ks db rc).2.2 = none ↔
        ∀ k ∈ ks, Insertable (db.docs k) (cd.lists k) ∧
          (cd.lists k ≠ [] → f.insertMany k = none) ∧ ∀ d ∈ cd.lists k, f.insertDoc k d = none := by
  induction ks with
  | nil => intro db rc; simp [restoreLists]
  | cons k ks ih =>
    intro db rc
    have hk : k ∉ ks := (List.nodup_cons.mp hnd).1
    have hks : ks.Nodup := (List.nodup_cons.mp hnd).2
    have hframe : ∀ (coll : List Doc),
        (∀ j ∈ ks, Insertable ((if j = k then coll else db.docs j)) (cd.lists j) ∧
          (cd.lists j ≠ [] → f.insertMany j = none) ∧
            ∀ d ∈ cd.lists j, f.insertDoc j d = none) ↔
          ∀ j ∈ ks, Insertable (db.docs j) (cd.lists j) ∧
            (cd.lists j ≠ [] → f.insertMany j = none) ∧
              ∀ d ∈ cd.lists j, f.insertDoc j d = none := by
      intro coll
      constructor
      · intro h j hj
        have hjk : j ≠ k := fun e => hk (e ▸ hj)
        simpa [hjk] using h j hj
      · intro h j hj
        have hjk : j ≠ k := fun e => hk (e ▸ hj)
        simpa [hjk] using h j hj
    unfold restoreLists
    simp only [List.mem_cons, forall_eq_or_imp]
    split
    · rename_i hlen
      have hne : cd.lists k ≠ [] := by
        intro e; rw [e] at hlen; simp at hlen
      split
      · rename_i coll hins
        rw [ih hks]
        simp only [hframe]
        have : (insertMany (f.insertMany k) (f.insertDoc k) (db.docs k) (cd.lists k)).2 = none := by
          rw [hins]
        rw [insertMany_ok_iff] at this
        constructor
        · intro h; exact ⟨⟨this.2.1, fun _ => this.1, this.2.2⟩, h⟩
        · intro h; exact h.2
      · rename_i coll msg hins
        have : (insertMany (f.insertMany k) (f.insertDoc k) (db.docs k) (cd.lists k)).2 ≠ none := by
          rw [hins]; simp
        rw [Ne, insertMany_ok_iff] at this
        constructor
        · intro h; simp at h
        · rintro ⟨⟨h1, h2, h3⟩, _⟩
          exact absurd ⟨h2 hne, h1, h3⟩ this
    · rename_i hlen
      rw [ih hks]
      have hnil : cd.lists k = [] := by
        cases h : cd.lists k with
        | nil => rfl
        | cons a as => simp [h] at hlen
      simp [hnil, Insertable]

theorem restoreLists_docs (f : Faults) (cd : CommunityData) (ks : List Coll) (hnd : ks.Nodup) :
    ∀ (db : Db) (rc : RestoredCounts), (restoreLists f cd ks db rc).2.2 = none →
      ∀ k, (restoreLists f cd ks db rc).1.docs k =
        if k ∈ ks then db.docs k ++ cd.lists k else db.docs k := by
  induction ks with
  | nil => intro db rc _ k; simp [restoreLists]
  | cons k ks ih =>
    intro db rc hok j
    have hk : k ∉ ks := (List.nodup_cons.mp hnd).1
    have hks : ks.Nodup := (List.nodup_cons.mp hnd).2
    unfold restoreLists at hok ⊢
    split at hok
    · rename_i hlen
      simp only [hlen, if_true]
      split at hok
      · rename_i coll hins
        rw [ih hks _ _ hok j]
        have hcoll : coll = db.docs k ++ cd.lists k := by
          have h1 := insertMany_fst_of_ok (f.insertMany k) (f.insertDoc k) (db.docs k)
            (cd.lists k) (by rw [hins])
          rw [hins] at h1
          exact h1
        by_cases hjk : j = k
        · subst hjk
          simp [hk, hcoll]
        · simp [hjk]
      · simp at hok
    · rename_i hlen
      simp only [hlen, if_false]
      rw [ih hks _ _ hok j]
      have hnil : cd.lists k = [] := by
        cases h : cd.lists k with
        | nil => rfl
        | cons a as => simp [h] at hlen
      by_cases hjk : j = k
      · subst hjk
        simp [hk, hnil]
      · simp [hjk]

theorem restoreOrder_nodup : restoreOrder.Nodup := by decide

theorem mem_restoreOrder (k : Coll) : k ∈ restoreOrder := by cases k <;> decide

theorem Community.create_ok_iff (fault : Option String) (coll : List CommunityDoc)
    (doc : CommunityDoc) :
    Community.create fault coll doc = .ok (coll ++ [doc]) ↔
      fault = none ∧ ∀ c ∈ coll, c._id ≠ doc._id := by
  unfold Community.create
  cases fault with
  | some msg =>
    simp only
    constructor
    · intro h; cases h
    · intro h; cases h.1
  | none =>
    simp only [true_and]
    by_cases hany : coll.any (fun c => c._id == doc._id) = true
    · simp only [hany, if_true]
      constructor
      · intro h; cases h
      · intro h
        obtain ⟨e, he, hed⟩ := List.any_eq_true.mp hany
        exact absurd (by simpa using hed) (h e he)
    · simp only [hany, Bool.false_eq_true, if_false, true_iff]
      intro c hc hcd
      exact hany (List.any_eq_true.mpr ⟨c, hc, by simpa using hcd⟩)

theorem Community.create_cases (fault : Option String) (coll : List CommunityDoc)
    (doc : CommunityDoc) :
    Community.create fault coll doc = .ok (coll ++ [doc]) ∨
      ∃ msg, Community.create fault coll doc = .error msg := by
  unfold Community.create
  cases fault with
  | some msg => exact Or.inr ⟨msg, rfl⟩
  | none =>
    simp only
    split
    · exact Or.inr ⟨_, rfl⟩
    · exact Or.inl rfl

theorem restoreCommunity_ok (env : Env) (db : Db) (req : Req)
    (h : (restoreCommunity env db req).2.status = 200) :
    ∃ b, findBackupById db req.id = some b ∧ b.status = .pending ∧
      env.now ≤ b.permanentDeleteAt ∧ Restorable db b.communityData ∧
      (restoreCommunity env db req).1.communities =
        db.communities ++ [b.communityData.community] ∧
      (∀ k, (restoreCommunity env db req).1.docs k = db.docs k ++ b.communityData.lists k) ∧
      (restoreCommunity env db req).1.backups = saveBackup (markRestored env req b) db.backups ∧
      (restoreCommunity env db req).2.communityId? = some b.communityData.community._id := by
  cases hb : findBackupById db req.id with
  | none => simp [restoreCommunity, hb] at h
  | some b =>
    refine ⟨b, rfl, ?_⟩
    by_cases h1 : b.status = .restored
    · simp [restoreCommunity, hb, h1] at h
    by_cases h2 : b.status = .permanently_deleted
    · simp [restoreCommunity, hb, h1, h2] at h
    by_cases h3 : env.now > b.permanentDeleteAt
    · simp [restoreCommunity, hb, h1, h2, h3] at h
    have hpend : b.status = .pending := by
      cases hs : b.status <;> simp_all
    rcases Community.create_cases env.faults.communityCreate db.communities
        b.communityData.community with hc | ⟨msg, hc⟩
    · rcases hr : restoreLists env.faults b.communityData restoreOrder
          { db with communities := db.communities ++ [b.communityData.community] }
          { community := some 1, lists := fun _ => none } with ⟨db1, rc, ok⟩
      cases ok with
      | some msg => simp [restoreCommunity, hb, h1, h2, h3, hc, hr] at h
      | none =>
        cases hsave : env.faults.backupSave with
        | some msg => simp [restoreCommunity, hb, h1, h2, h3, hc, hr, hsave] at h
        | none =>
          have hok : (restoreLists env.faults b.communityData restoreOrder
              { db with communities := db.communities ++ [b.communityData.community] }
              { community := some 1, lists := fun _ => none }).2.2 = none := by rw [hr]
          have hfr := restoreLists_frame env.faults b.communityData restoreOrder
              { db with communities := db.communities ++ [b.communityData.community] }
              { community := some 1, lists := fun _ => none }
          have hdocs :=
            restoreLists_docs env.faults b.communityData restoreOrder restoreOrder_nodup _ _ hok
          have hins :=
            (restoreLists_ok_iff env.faults b.communityData restoreOrder restoreOrder_nodup
              _ _).mp hok
          rw [hr] at hfr hdocs
          simp only at hfr hdocs hins
          refine ⟨hpend, Nat.le_of_not_gt h3, ⟨?_, ?_⟩, ?_⟩
          · exact ((Community.create_ok_iff _ _ _).mp hc).2
          · intro k; exact (hins k (mem_restoreOrder k)).1
          · simp only [restoreCommunity, hb, h1, h2, h3, hc, hr, hsave, if_false]
            refine ⟨?_, ?_, ?_, ?_⟩
            · rw [createAuditLog_communities]; exact hfr.1
            · intro k
              rw [createAuditLog_docs]
              simpa [mem_restoreOrder k] using hdocs k
            · rw [createAuditLog_backups]
              simp only [markRestored]
              rw [hfr.2.1]
            · rfl
    · simp [restoreCommunity, hb, h1, h2, h3, hc] at h

theorem restoreCommunity_ok_faults (env : Env) (db : Db) (req : Req)
    (h : (restoreCommunity env db req).2.status = 200) :
    ∃ b, findBackupById db req.id = some b ∧ NoRestoreFault env.faults b.communityData := by
  cases hb : findBackupById db req.id with
  | none => simp [restoreCommunity, hb] at h
  | some b =>
    refine ⟨b, rfl, ?_⟩
    by_cases h1 : b.status = .restored
    · simp [restoreCommunity, hb, h1] at h
    by_cases h2 : b.status = .permanently_deleted
    · simp [restoreCommunity, hb, h1, h2] at h
    by_cases h3 : env.now > b.permanentDeleteAt
    · simp [restoreCommunity, hb, h1, h2, h3] at h
    rcases Community.create_cases env.faults.communityCreate db.communities
        b.communityData.community with hc | ⟨msg, hc⟩
    · rcases hr : restoreLists env.faults b.communityData restoreOrder
          { db with communities := db.communities ++ [b.communityData.community] }
          { community := some 1, lists := fun _ => none } with ⟨db1, rc, ok⟩
      cases ok with
      | some msg => simp [restoreCommunity, hb, h1, h2, h3, hc, hr] at h
      | none =>
        cases hsave : env.faults.backupSave with
        | some msg => simp [restoreCommunity, hb, h1, h2, h3, hc, hr, hsave] at h
        | none =>
          have hok : (restoreLists env.faults b.communityData restoreOrder
              { db with communities := db.communities ++ [b.communityData.community] }
              { community := some 1, lists := fun _ => none }).2.2 = none := by rw [hr]
          have hins :=
            (restoreLists_ok_iff env.faults b.communityData restoreOrder restoreOrder_nodup
              _ _).mp hok
          exact ⟨((Community.create_ok_iff _ _ _).mp hc).1,
            fun k => (hins k (mem_restoreOrder k)).2.1,
            fun k => (hins k (mem_restoreOrder k)).2.2, hsave⟩
    · simp [restoreCommunity, hb, h1, h2, h3, hc] at h

theorem restoreCommunity_of_restorable (env : Env) (db : Db) (req : Req) (b : Backup)
    (hb : findBackupById db req.id = some b) (hpend : b.status = .pending)
    (hnow : env.now ≤ b.permanentDeleteAt) (hres : Restorable db b.communityData)
    (hf : NoRestoreFault env.faults b.communityData) :
    (restoreCommunity env db req).2.status = 200 := by
  have h1 : ¬ b.status = .restored := by rw [hpend]; decide
  have h2 : ¬ b.status = .permanently_deleted := by rw [hpend]; decide
  have h3 : ¬ env.now > b.permanentDeleteAt := Nat.not_lt.mpr hnow
  have hc := (Community.create_ok_iff _ _ _).mpr ⟨hf.1, hres.1⟩
  have hsave := hf.2.2.2
  have hok : (restoreLists env.faults b.communityData restoreOrder
        { db with communities := db.communities ++ [b.communityData.community] }
        { community := some 1, lists := fun _ => none }).2.2 = none :=
    (restoreLists_ok_iff env.faults b.communityData restoreOrder restoreOrder_nodup _ _).mpr
      (fun k _ => ⟨hres.2 k, hf.2.1 k, hf.2.2.1 k⟩)
  rcases hr : restoreLists env.faults b.communityData restoreOrder
      { db with communities := db.communities ++ [b.communityData.community] }
      { community := some 1, lists := fun _ => none } with ⟨db1, rc, ok⟩
  rw [hr] at hok
  simp only at hok
  subst hok
  simp only [restoreCommunity, hb, h1, h2, h3, hc, hr, hsave, if_false]

theorem restoreCommunity_pass_status (env : Env) (db : Db) (req : Req) (b : Backup)
    (hb : findBackupById db req.id = some b) (hpend : b.status = .pending)
    (hnow : env.now ≤ b.permanentDeleteAt) :
    (restoreCommunity env db req).2.status = 200 ∨
      ((restoreCommunity env db req).2.status = 500 ∧
        (restoreCommunity env db req).2.message = "Failed to restore community") := by
  have h1 : ¬ b.status = .restored := by rw [hpend]; decide
  have h2 : ¬ b.status = .permanently_deleted := by rw [hpend]; decide
  have h3 : ¬ env.now > b.permanentDeleteAt := Nat.not_lt.mpr hnow
  rcases Community.create_cases env.faults.communityCreate db.communities
      b.communityData.community with hc | ⟨msg, hc⟩
  · rcases hr : restoreLists env.faults b.communityData restoreOrder
        { db with communities := db.communities ++ [b.communityData.community] }
        { community := some 1, lists := fun _ => none } with ⟨db1, rc, ok⟩
    cases ok with
    | some msg =>
      right; simp only [restoreCommunity, hb, h1, h2, h3, hc, hr, if_false, and_self]
    | none =>
      cases hsave : env.faults.backupSave with
      | some msg =>
        right; simp only [restoreCommunity, hb, h1, h2, h3, hc, hr, hsave, if_false, and_self]
      | none =>
        left; simp only [restoreCommunity, hb, h1, h2, h3, hc, hr, hsave, if_false]
  · right; simp only [restoreCommunity, hb, h1, h2, h3, hc, if_false, and_self]

theorem restoreCommunity_of_restored (env : Env) (db : Db) (req : Req) (b : Backup)
    (hb : findBackupById db req.id = some b) (hs : b.status = .restored) :
    restoreCommunity env db req =
      (db, { status := 400, success := false, message := "Community already restored",
             body := .plain }) := by
  unfold restoreCommunity
  simp only [hb, hs, if_true]

theorem restoreCommunity_of_permanently_deleted (env : Env) (db : Db) (req : Req) (b : Backup)
    (hb : findBackupById db req.id = some b) (hs : b.status = .permanently_deleted) :
    restoreCommunity env db req =
      (db, { status := 400, success := false
             message := "Backup permanently deleted, cannot restore", body := .plain }) := by
  unfold restoreCommunity
  simp [hb, hs]

theorem restoreCommunity_of_pending_expired (env : Env) (db : Db) (req : Req) (b : Backup)
    (hb : findBackupById db req.id = some b) (hs : b.status = .pending)
    (hexp : env.now > b.permanentDeleteAt) :
    restoreCommunity env db req =
      (db, { status := 400, success := false, message := "Backup expired, cannot restore",
             body := .plain }) := by
  unfold restoreCommunity
  simp [hb, hs, hexp]

theorem find?_saveBackup (bs : List Backup) (b saved : Backup) (id : ObjectId)
    (h : bs.find? (fun x => x._id == id) = some b) (hid : saved._id = id) :
    (saveBackup saved bs).find? (fun x => x._id == id) = some saved := by
  induction bs with
  | nil => simp at h
  | cons x xs ih =>
    unfold saveBackup
    by_cases hx : x._id = id
    · have e1 : (x._id == saved._id) = true := by simp [hx, hid]
      have e2 : (saved._id == id) = true := by simp [hid]
      simp only [e1, if_true, List.find?_cons, e2]
    · have e1 : (x._id == saved._id) = false := by simp [hx, hid]
      have e2 : (x._id == id) = false := by simp [hx]
      simp only [e1, Bool.false_eq_true, if_false, List.find?_cons, e2]
      simp only [List.find?_cons, e2] at h
      exact ih h

theorem deleteCommunity_ok (env : Env) (db : Db) (req : Req) (bid : ObjectId)
    (h : (deleteCommunity env db req).2.backupId? = some bid) :
    ∃ c, getCommunityById db req.id = some c ∧ bid = (newBackup env db req c)._id ∧
      findBackupById (deleteCommunity env db req).1 bid = some (newBackup env db req c) := by
  cases hc : getCommunityById db req.id with
  | none => simp [deleteCommunity, hc, Response.backupId?] at h
  | some c =>
    refine ⟨c, rfl, ?_⟩
    cases hf : env.faults.backupCreate with
    | some msg => simp [deleteCommunity, hc, hf, Response.backupId?] at h
    | none =>
      have hcas := deleteCommunityCascade_backups env.faults
        { db with backups := db.backups ++ [newBackup env db req c] } req.id
      rcases hr : deleteCommunityCascade env.faults
        { db with backups := db.backups ++ [newBackup env db req c] } req.id with ⟨db2, r⟩
      rw [hr] at hcas
      simp only at hcas
      cases r with
      | error msg => simp [deleteCommunity, hc, hf, hr, Response.backupId?] at h
      | ok result =>
        simp only [deleteCommunity, hc, hf, hr, Response.backupId?, Option.some.injEq] at h
        subst h
        refine ⟨rfl, ?_⟩
        simp only [deleteCommunity, hc, hf, hr, findBackupById]
        rw [createAuditLog_backups, hcas]
        exact find?_append_fresh _ _ (freshId_not_mem _)

theorem deleteCommunityTraced_snd (env : Env) (db : Db) (req : Req) :
    (deleteCommunityTraced env db req).2 = deleteCommunity env db req := by
  unfold deleteCommunityTraced deleteCommunity
  simp only
  repeat' split
  all_goals rfl

theorem deleteCommunityTraced_of_found :
    (deleteCommunityTraced { now := 100 } (sampleDb residentsAndWorker) sampleReq).1 =
      [.getCommunityById 1] ++ snapshotOrder.map (fun k => StoreOp.find k 1) ++
        [.createBackup 1, .find .residents 1, .find .managers 1, .find .workers 1,
         .find .securities 1] ++ cascadeOrder.map (fun k => StoreOp.deleteMany k 1) ++
        [.findByIdAndDelete 1, .createAuditLog "delete_community"] := by
  decide

/-! ## Deleting a community -/

/-- C1, evaluated at the failing state: community `1` owns one CommunitySubscription stored
with `communityId` only. `deleteCommunity` answers 200 and removes the subscription from the
live collection, while the `subscriptions` list of the backup that the same call persisted is
empty: the record is deleted without being in the backup. -/
theorem deleteCommunity_deletes_subscription_missing_from_backup :
    (sampleDb subscriptionOnly).docs .subscriptions = [{ _id := 10, communityId := some 1 }] ∧
    (afterDelete subscriptionOnly).2.status = 200 ∧
    (afterDelete subscriptionOnly).1.docs .subscriptions = [] ∧
    (afterDelete subscriptionOnly).1.backups.map
      (fun b => (b._id, b.originalCommunityId, b.communityData.lists .subscriptions)) =
      [(1, 1, [])] := by
  decide

/-- C2: when `DeletedCommunityBackup.create` throws in `deleteCommunity` (the community
exists, so the handler reached the call), the state after the request is the state before it:
no collection changed, no cascade ran, and the response is 500 with `success: false`,
the message 'Failed to delete community' and the message of the error. -/
theorem deleteCommunity_backup_create_fails (env : Env) (db : Db) (req : Req)
    (community : CommunityDoc) (msg : String)
    (hc : getCommunityById db req.id = some community)
    (hf : env.faults.backupCreate = some msg) :
    deleteCommunity env db req =
      (db, { status := 500, success := false, message := "Failed to delete community",
             body := .error msg }) := by
  unfold deleteCommunity
  simp only [hc, hf]

/-- C2 at a concrete state: community `1` with three residents and a worker, and a backup
write that is rejected. -/
theorem deleteCommunity_backup_create_fails_witness :
    deleteCommunity { now := 100, faults := { backupCreate := some "write failed" } }
        (sampleDb residentsAndWorker) sampleReq =
      (sampleDb residentsAndWorker,
        { status := 500, success := false, message := "Failed to delete community",
          body := .error "write failed" }) :=
  deleteCommunity_backup_create_fails _ _ _ sampleCommunity "write failed" (by decide) rfl

/-- C3: when the id resolves to no Community, `deleteCommunity` answers 404 'Community not
found' and returns the state it was given: no backup is created, no record is deleted and no
audit entry is written. The only store call the handler has issued by then is the load of the
community: it answers before any read (`find`) of a dependent collection, and issues no
write. -/
theorem deleteCommunity_not_found (env : Env) (db : Db) (req : Req)
    (h : getCommunityById db req.id = none) :
    deleteCommunity env db req =
      (db, { status := 404, success := false, message := "Community not found",
             body := .plain }) ∧
    deleteCommunityTraced env db req =
      ([.getCommunityById req.id], deleteCommunity env db req) ∧
    (∀ k id, StoreOp.find k id ∉ (deleteCommunityTraced env db req).1) ∧
    (deleteCommunityTraced env db req).2 = deleteCommunity env db req := by
  have h1 : deleteCommunity env db req =
      (db, { status := 404, success := false, message := "Community not found",
             body := .plain }) := by
    unfold deleteCommunity
    simp only [h]
  have h2 : deleteCommunityTraced env db req =
      ([.getCommunityById req.id], deleteCommunity env db req) := by
    rw [h1]
    unfold deleteCommunityTraced
    simp only [h]
  refine ⟨h1, h2, ?_, deleteCommunityTraced_snd env db req⟩
  intro k id hmem
  rw [h2] at hmem
  simp at hmem

/-- C3 at a concrete state: the id `2` resolves to no community, while community `1` has three
residents and a worker. -/
theorem deleteCommunity_not_found_witness :
    deleteCommunity { now := 100 } (sampleDb residentsAndWorker) { sampleReq with id := 2 } =
      (sampleDb residentsAndWorker,
        { status := 404, success := false, message := "Community not found", body := .plain }) ∧
    (deleteCommunityTraced { now := 100 } (sampleDb residentsAndWorker)
      { sampleReq with id := 2 }).1 = [.getCommunityById 2] :=
  have h := deleteCommunity_not_found { now := 100 } (sampleDb residentsAndWorker)
    { sampleReq with id := 2 } (by decide)
  ⟨h.1, congrArg Prod.fst h.2.1⟩

/-- C4, evaluated at the failing state: community `1` owns one Amenity. The preview reports
`willDelete.amenities = 0`; the delete returns backup `1`, and restoring it succeeds with
`restored.amenities = 1`. -/
theorem preview_amenities_differ_from_restored :
    (sampleDb amenityOnly).docs .amenities = [{ _id := 30, community := some 1 }] ∧
    (afterDelete amenityOnly).2.status = 200 ∧
    ((getDeletePreview (sampleDb amenityOnly) sampleReq).willDelete?).map
      (fun w => w.amenities) = some 0 ∧
    (afterDelete amenityOnly).2.backupId? = some 1 ∧
    (afterRestore amenityOnly).2.status = 200 ∧
    ((afterRestore amenityOnly).2.restored?).map (fun rc => rc.lists .amenities) =
      some (some 1) := by
  decide

/-! ## Restoring a community -/

/-- C5, as stated, fails: deleting community `1` (three residents, one worker) stores a backup
with `originalCommunityId = 1`, and restoring that backup succeeds and re-creates the
Community under the identifier `1`, the backup's `originalCommunityId`, not a different one. -/
theorem restoreCommunity_recreates_same_id :
    (afterDelete residentsAndWorker).1.backups.map (fun b => (b._id, b.originalCommunityId)) =
      [(1, 1)] ∧
    (afterDelete residentsAndWorker).1.communities = [] ∧
    (afterRestore residentsAndWorker).2.status = 200 ∧
    (afterRestore residentsAndWorker).2.communityId? = some 1 ∧
    (afterRestore residentsAndWorker).1.communities = [sampleCommunity] := by
  decide

/-- C5, amended: let `bid` be the backup id a successful `deleteCommunity` on community
`req.id` returned, and let `db2` be any later state that still holds that backup as stored.
Every successful `restoreCommunity` of `bid` re-creates the Community under the identifier
`req.id`, which is the backup's `originalCommunityId`. -/
theorem restoreCommunity_keeps_original_id (env : Env) (db : Db) (req : Req) (bid : ObjectId)
    (env2 : Env) (db2 : Db) (req2 : Req)
    (hdel : (deleteCommunity env db req).2.backupId? = some bid)
    (hreq : req2.id = bid)
    (hsame : findBackupById db2 bid = findBackupById (deleteCommunity env db req).1 bid)
    (hok : (restoreCommunity env2 db2 req2).2.status = 200) :
    (restoreCommunity env2 db2 req2).2.communityId? = some req.id ∧
    (findBackupById db2 bid).map (fun b => b.originalCommunityId) = some req.id ∧
    ∃ c ∈ (restoreCommunity env2 db2 req2).1.communities, c._id = req.id := by
  obtain ⟨c, hc, _, hfind⟩ := deleteCommunity_ok env db req bid hdel
  obtain ⟨b, hb, _, _, _, hcomm, _, _, hresp⟩ := restoreCommunity_ok env2 db2 req2 hok
  rw [hreq, hsame, hfind] at hb
  have hbe : b = newBackup env db req c := (Option.some.inj hb).symm
  have hid : b.communityData.community._id = req.id := by
    rw [hbe]; exact getCommunityById_id db req.id c hc
  refine ⟨by rw [hresp, hid], ?_, ?_⟩
  · rw [hsame, hfind]; rfl
  · exact ⟨b.communityData.community, by rw [hcomm]; simp, hid⟩

/-- C5 (amended) at a concrete state: community `1` is deleted at instant `100` and its
backup restored at instant `200`. -/
theorem restoreCommunity_keeps_original_id_witness :
    (afterRestore residentsAndWorker).2.communityId? = some 1 ∧
    (findBackupById (afterDelete residentsAndWorker).1 1).map (fun b => b.originalCommunityId) =
      some 1 ∧
    ∃ c ∈ (afterRestore residentsAndWorker).1.communities, c._id = 1 :=
  restoreCommunity_keeps_original_id { now := 100 } (sampleDb residentsAndWorker) sampleReq 1
    { now := 200 } (afterDelete residentsAndWorker).1 sampleReq (by decide) rfl rfl (by decide)

/-- C7, as stated, fails: community `1` has one Notification with `community = 1` that no
owner lists. Deleting the community stores it in the snapshot and leaves it in the live
collection; the backup is pending and unexpired at instant `200`, and the first
`restoreCommunity` does not succeed: the insert of the notification is rejected and the
answer is 500, with the backup still pending. -/
theorem restoreCommunity_first_call_can_fail :
    (afterDelete looseNotification).2.status = 200 ∧
    (afterDelete looseNotification).1.backups.map
      (fun b => (b._id, b.status, decide (200 ≤ b.permanentDeleteAt))) = [(1, .pending, true)] ∧
    (afterRestore looseNotification).2.status = 500 ∧
    (afterRestore looseNotification).1.backups.map (fun b => (b._id, b.status)) =
      [(1, .pending)] := by
  decide

/-- C7, amended: for every pending, unexpired backup on which a first `restoreCommunity`
succeeds, a second call on the same backup id, at any later instant and by any admin, answers
400 'Community already restored' and returns the state the first call left: it inserts no
record. -/
theorem restoreCommunity_second_call_rejected (env : Env) (db : Db) (req : Req) (b : Backup)
    (env2 : Env) (req2 : Req)
    (hb : findBackupById db req.id = some b) (hpend : b.status = .pending)
    (hnow : env.now ≤ b.permanentDeleteAt)
    (hok : (restoreCommunity env db req).2.status = 200) (hid : req2.id = req.id) :
    restoreCommunity env2 (restoreCommunity env db req).1 req2 =
      ((restoreCommunity env db req).1,
        { status := 400, success := false, message := "Community already restored",
          body := .plain }) := by
  obtain ⟨b1, hb1, _, _, _, _, _, hbk, _⟩ := restoreCommunity_ok env db req hok
  rw [hb] at hb1
  have hbe : b1 = b := (Option.some.inj hb1).symm
  subst hbe
  have hfind : findBackupById (restoreCommunity env db req).1 req2.id =
      some (markRestored env req b1) := by
    unfold findBackupById
    rw [hbk, hid]
    exact find?_saveBackup db.backups b1 _ req.id hb (by
      have := List.find?_some hb
      simpa [markRestored] using this)
  exact restoreCommunity_of_restored env2 _ req2 _ hfind rfl

/-- C7 (amended) at a concrete state: backup `1` of community `1` is restored at instant `200`
and the request repeated at instant `300`. -/
theorem restoreCommunity_second_call_rejected_witness :
    afterSecondRestore residentsAndWorker =
      ((afterRestore residentsAndWorker).1,
        { status := 400, success := false, message := "Community already restored",
          body := .plain }) :=
  restoreCommunity_second_call_rejected { now := 200 } (afterDelete residentsAndWorker).1
    sampleReq (newBackup { now := 100 } (sampleDb residentsAndWorker) sampleReq sampleCommunity)
    { now := 300 } sampleReq rfl rfl (by decide) (by decide) rfl

/-- C8, as stated, fails: the backup of community `1` was restored, and a restore request
made after its `permanentDeleteAt` (instant `100 + 30 days + 1`) is rejected with
'Community already restored', not with 'Backup expired, cannot restore'. -/
theorem expired_restored_backup_answers_already_restored :
    (afterRestore residentsAndWorker).1.backups.map
      (fun b => (b._id, b.status, decide (b.permanentDeleteAt < 100 + thirtyDays + 1))) =
      [(1, .restored, true)] ∧
    (restoreCommunity { now := 100 + thirtyDays + 1 } (afterRestore residentsAndWorker).1
      sampleReq).2.message = "Community already restored" ∧
    (restoreCommunity { now := 100 + thirtyDays + 1 } (afterRestore residentsAndWorker).1
      sampleReq).2.message ≠ "Backup expired, cannot restore" := by
  decide

/-- C8, amended: for every backup whose `permanentDeleteAt` is earlier than the current time,
`restoreCommunity` fails with status 400 and changes nothing; the message is
'Backup expired, cannot restore' when the status is pending, 'Community already restored'
when it is restored and 'Backup permanently deleted, cannot restore' when it is
permanently_deleted (the two status guards run before the expiry guard). -/
theorem restoreCommunity_expired (env : Env) (db : Db) (req : Req) (b : Backup)
    (hb : findBackupById db req.id = some b) (hexp : b.permanentDeleteAt < env.now) :
    restoreCommunity env db req =
      (db, { status := 400, success := false
             message :=
               match b.status with
               | .pending => "Backup expired, cannot restore"
               | .restored => "Community already restored"
               | .permanently_deleted => "Backup permanently deleted, cannot restore"
             body := .plain }) := by
  unfold restoreCommunity
  cases hs : b.status <;> simp [hb, hs, hexp]

/-- C8 (amended) at a concrete state: the pending backup `1` one millisecond after its
deadline. -/
theorem restoreCommunity_expired_witness :
    restoreCommunity { now := 100 + thirtyDays + 1 } (afterDelete residentsAndWorker).1
        sampleReq =
      ((afterDelete residentsAndWorker).1,
        { status := 400, success := false, message := "Backup expired, cannot restore",
          body := .plain }) :=
  restoreCommunity_expired { now := 100 + thirtyDays + 1 } (afterDelete residentsAndWorker).1
    sampleReq (newBackup { now := 100 } (sampleDb residentsAndWorker) sampleReq sampleCommunity)
    rfl (by decide)

/-- C9, as stated, fails: after a delete of community `1` whose cascade was interrupted, the
backup `1` exists, is pending and unexpired at instant `200`, and the community is still
stored. `restoreCommunity` passes the guards but reinserts nothing: `Community.create` is
rejected, the answer is 500 and every collection is as before. -/
theorem restoreCommunity_pending_unexpired_inserts_nothing :
    afterFailedCascade.1.backups.map
      (fun b => (b._id, b.status, decide (200 ≤ b.permanentDeleteAt))) = [(1, .pending, true)] ∧
    afterFailedCascade.1.communities = [sampleCommunity] ∧
    (restoreCommunity { now := 200 } afterFailedCascade.1 sampleReq).2.status = 500 ∧
    (restoreCommunity { now := 200 } afterFailedCascade.1 sampleReq).1.communities =
      afterFailedCascade.1.communities ∧
    ∀ k, (restoreCommunity { now := 200 } afterFailedCascade.1 sampleReq).1.docs k =
      afterFailedCascade.1.docs k := by
  decide

/-- C9, amended: `restoreCommunity` reinserts the snapshot (the community document and every
list, answering 200) only if the backup exists, its status is pending and
`now <= permanentDeleteAt`. For a pending backup with `now <= permanentDeleteAt` (the deadline
itself included) the guards are passed and the reinsertion is attempted: the answer is 200, or
500 'Failed to restore community' when a write is rejected, which is the case whenever an
`_id` of the snapshot is already stored; it is 200 when no write is rejected. For status
restored, status permanently_deleted and a pending backup past its deadline the answer is 400
with the message of that case, and the state is returned unchanged: no record is inserted. -/
theorem restoreCommunity_guards (env : Env) (db : Db) (req : Req) :
    ((restoreCommunity env db req).2.status = 200 →
      ∃ b, findBackupById db req.id = some b ∧ b.status = .pending ∧
        env.now ≤ b.permanentDeleteAt ∧
        (restoreCommunity env db req).1.communities =
          db.communities ++ [b.communityData.community] ∧
        ∀ k, (restoreCommunity env db req).1.docs k = db.docs k ++ b.communityData.lists k) ∧
    (∀ b, findBackupById db req.id = some b → b.status = .pending →
      env.now ≤ b.permanentDeleteAt →
      (restoreCommunity env db req).2.status = 200 ∨
        ((restoreCommunity env db req).2.status = 500 ∧
          (restoreCommunity env db req).2.message = "Failed to restore community")) ∧
    (∀ b, findBackupById db req.id = some b → b.status = .pending →
      env.now ≤ b.permanentDeleteAt → ¬ Restorable db b.communityData →
      (restoreCommunity env db req).2.status = 500 ∧
        (restoreCommunity env db req).2.message = "Failed to restore community") ∧
    (∀ b, findBackupById db req.id = some b → b.status = .pending →
      env.now ≤ b.permanentDeleteAt → Restorable db b.communityData →
      NoRestoreFault env.faults b.communityData →
      (restoreCommunity env db req).2.status = 200) ∧
    (∀ b, findBackupById db req.id = some b → b.status = .restored →
      restoreCommunity env db req =
        (db, { status := 400, success := false, message := "Community already restored",
               body := .plain })) ∧
    (∀ b, findBackupById db req.id = some b → b.status = .permanently_deleted →
      restoreCommunity env db req =
        (db, { status := 400, success := false
               message := "Backup permanently deleted, cannot restore", body := .plain })) ∧
    (∀ b, findBackupById db req.id = some b → b.status = .pending →
      env.now > b.permanentDeleteAt →
      restoreCommunity env db req =
        (db, { status := 400, success := false, message := "Backup expired, cannot restore",
               body := .plain })) := by
  refine ⟨?_, ?_, ?_, ?_, ?_, ?_, ?_⟩
  · intro h
    obtain ⟨b, hb, hp, hn, _, hcomm, hdocs, _⟩ := restoreCommunity_ok env db req h
    exact ⟨b, hb, hp, hn, hcomm, hdocs⟩
  · intro b hb hp hn
    exact restoreCommunity_pass_status env db req b hb hp hn
  · intro b hb hp hn hr
    rcases restoreCommunity_pass_status env db req b hb hp hn with h | h
    · obtain ⟨b1, hb1, _, _, hres, _⟩ := restoreCommunity_ok env db req h
      rw [hb] at hb1
      have hbe : b1 = b := (Option.some.inj hb1).symm
      subst hbe
      exact absurd hres hr
    · exact h
  · intro b hb hp hn hr hf
    exact restoreCommunity_of_restorable env db req b hb hp hn hr hf
  · intro b hb hs
    exact restoreCommunity_of_restored env db req b hb hs
  · intro b hb hs
    exact restoreCommunity_of_permanently_deleted env db req b hb hs
  · intro b hb hs hexp
    exact restoreCommunity_of_pending_expired env db req b hb hs hexp

/-- C9 (amended) at concrete states: the pending backup `1` of community `1` is restored at
instant `200`, and rejected as expired one millisecond after its deadline. -/
theorem restoreCommunity_guards_witness :
    (afterRestore residentsAndWorker).2.status = 200 ∧
    restoreCommunity { now := 100 + thirtyDays + 1 } (afterDelete residentsAndWorker).1
        sampleReq =
      ((afterDelete residentsAndWorker).1,
        { status := 400, success := false, message := "Backup expired, cannot restore",
          body := .plain }) :=
  ⟨(restoreCommunity_guards { now := 200 } (afterDelete residentsAndWorker).1
      sampleReq).2.2.2.1
      (newBackup { now := 100 } (sampleDb residentsAndWorker) sampleReq sampleCommunity)
      rfl rfl (by decide) (by unfold Restorable Insertable; decide)
      ⟨rfl, fun _ _ => rfl, fun _ _ _ => rfl, rfl⟩,
    (restoreCommunity_guards { now := 100 + thirtyDays + 1 } (afterDelete residentsAndWorker).1
      sampleReq).2.2.2.2.2.2
      (newBackup { now := 100 } (sampleDb residentsAndWorker) sampleReq sampleCommunity)
      rfl rfl (by decide)⟩

/-- A restore whose snapshot meets no stored `_id` can still fail: when the store rejects the
second Resident of the snapshot for another reason (a unique index on another field), the
answer is 500, the community and the first Resident stay inserted, and the backup stays
pending; when `backup.save()` is rejected, the whole snapshot is inserted and the backup stays
pending. -/
theorem restoreCommunity_rejected_write :
    (restoreCommunity
      { now := 200
        faults :=
          { insertDoc := fun k d =>
              if k = .residents ∧ d._id = 12 then some "E11000 duplicate key error: email"
              else none } }
      (afterDelete residentsAndWorker).1 sampleReq).2 =
      { status := 500, success := false, message := "Failed to restore community",
        body := .error "E11000 duplicate key error: email" } ∧
    (restoreCommunity
      { now := 200
        faults :=
          { insertDoc := fun k d =>
              if k = .residents ∧ d._id = 12 then some "E11000 duplicate key error: email"
              else none } }
      (afterDelete residentsAndWorker).1 sampleReq).1.docs .residents =
      [{ _id := 11, community := some 1 }] ∧
    (restoreCommunity { now := 200, faults := { backupSave := some "write failed" } }
      (afterDelete residentsAndWorker).1 sampleReq).2.status = 500 ∧
    (restoreCommunity { now := 200, faults := { backupSave := some "write failed" } }
      (afterDelete residentsAndWorker).1 sampleReq).1.backups.map (fun b => b.status) =
      [.pending] ∧
    (restoreCommunity { now := 200, faults := { backupSave := some "write failed" } }
      (afterDelete residentsAndWorker).1 sampleReq).1.docs .residents =
      residentsAndWorker .residents := by
  refine ⟨rfl, by decide, by decide, by decide, by decide⟩

/-- C10: when the backup id resolves to no DeletedCommunityBackup, `restoreCommunity` answers
404 'Backup not found' and returns the state it was given: no collection and no backup is
changed. -/
theorem restoreCommunity_backup_not_found (env : Env) (db : Db) (req : Req)
    (h : findBackupById db req.id = none) :
    restoreCommunity env db req =
      (db, { status := 404, success := false, message := "Backup not found",
             body := .plain }) := by
  unfold restoreCommunity
  simp only [h]

/-- C10 at a concrete state: the id `5` resolves to no backup. -/
theorem restoreCommunity_backup_not_found_witness :
    restoreCommunity { now := 200 } (afterDelete residentsAndWorker).1
        { sampleReq with id := 5 } =
      ((afterDelete residentsAndWorker).1,
        { status := 404, success := false, message := "Backup not found", body := .plain }) :=
  restoreCommunity_backup_not_found _ _ _ rfl

/-! ## Lemmas on the cascade, the backups and the audit log -/

theorem foldl_setAdd_owner_ids (db : Db) (communityId : ObjectId) :
    (collectNotificationIds
        ((db.docs .residents).filter (fun d => d.community == some communityId)) ++
      collectNotificationIds
        ((db.docs .managers).filter (fun d => d.assignedCommunity == some communityId)) ++
      collectNotificationIds
        ((db.docs .workers).filter (fun d => d.community == some communityId)) ++
      collectNotificationIds
        ((db.docs .securities).filter (fun d => d.community == some communityId))).foldl
        setAdd [] = cascadeNotificationIds db communityId := rfl

theorem mem_cascadeOrder (k : Coll) (hk : k ≠ .notifications) : k ∈ cascadeOrder := by
  cases k <;> first | decide | exact absurd rfl hk

theorem deleteCommunityCascade_ok (f : Faults) (db : Db) (c : ObjectId) (r : CascadeResult)
    (h : (deleteCommunityCascade f db c).2 = .ok r) :
    (∀ k, k ≠ .notifications →
      (deleteCommunityCascade f db c).1.docs k =
        (db.docs k).filter (fun d => !cascadeFilter c k d)) ∧
    (deleteCommunityCascade f db c).1.docs .notifications =
      (db.docs .notifications).filter
        (fun d => !decide (d._id ∈ cascadeNotificationIds db c)) ∧
    (deleteCommunityCascade f db c).1.communities = findByIdAndDelete c db.communities ∧
    r.deletedCommunityId = (db.communities.find? (fun x => x._id == c)).map (fun x => x._id) ∧
    (∀ k, k ≠ .notifications →
      r.deletedCounts k = ((db.docs k).filter (cascadeFilter c k)).length) ∧
    r.deletedCounts .notifications =
      ((db.docs .notifications).filter
        (fun d => decide (d._id ∈ cascadeNotificationIds db c))).length := by
  have hnot : ∀ l : List Doc, l.filter (fun d => !cascadeFilter c .notifications d) = l := by
    intro l; simp [cascadeFilter]
  cases hfs : cascadeOrder.findSome? f.deleteMany with
  | some msg =>
    simp [deleteCommunityCascade, hfs] at h
  | none =>
    have hdm : ∀ k, k ≠ .notifications → f.deleteMany k = none := by
      intro k hk
      have := List.findSome?_eq_none_iff.mp hfs k (mem_cascadeOrder k hk)
      exact this
    by_cases hlen : (cascadeNotificationIds db c).length > 0
    · cases hfn : f.deleteMany .notifications with
      | some msg =>
        simp only [deleteCommunityCascade, hfs] at h
        simp only [foldl_setAdd_owner_ids] at h
        simp [hlen, hfn] at h
      | none =>
        cases hcd : f.communityDelete with
        | some msg =>
          simp only [deleteCommunityCascade, hfs] at h
          simp only [foldl_setAdd_owner_ids] at h
          simp [hlen, hfn, hcd] at h
        | none =>
          simp only [deleteCommunityCascade, hfs] at h ⊢
          simp only [foldl_setAdd_owner_ids] at h ⊢
          simp only [hlen, hfn, hcd, if_true] at h ⊢
          simp only [Except.ok.injEq] at h
          subst h
          refine ⟨?_, ?_, ?_, ?_, ?_, ?_⟩
          · intro k hk
            simp [hk, hdm k hk]
          · simp [hnot]
          · trivial
          · trivial
          · intro k hk
            simp [hk]
          · simp [hnot]
    · cases hcd : f.communityDelete with
      | some msg =>
        simp only [deleteCommunityCascade, hfs] at h
        simp only [foldl_setAdd_owner_ids] at h
        simp [hlen, hcd] at h
      | none =>
        have hnil : cascadeNotificationIds db c = [] := by
          cases hx : cascadeNotificationIds db c with
          | nil => rfl
          | cons a as => simp [hx] at hlen
        simp only [deleteCommunityCascade, hfs] at h ⊢
        simp only [foldl_setAdd_owner_ids] at h ⊢
        simp only [hlen, hcd, if_false] at h ⊢
        simp only [Except.ok.injEq] at h
        subst h
        refine ⟨?_, ?_, ?_, ?_, ?_, ?_⟩
        · intro k hk
          simp [hdm k hk]
        · cases hfn : f.deleteMany .notifications <;> simp [hnot, hnil]
        · trivial
        · trivial
        · intro k hk
          simp [hk]
        · simp [hnil]

theorem deleteCommunityCascade_frame (f : Faults) (db : Db) (c : ObjectId) :
    (deleteCommunityCascade f db c).1.interestForms = db.interestForms ∧
    (deleteCommunityCascade f db c).1.auditLogs = db.auditLogs := by
  unfold deleteCommunityCascade
  simp only
  repeat' split
  all_goals exact ⟨rfl, rfl⟩

theorem deleteCommunityCascade_succeeds (f : Faults) (db : Db) (c : ObjectId)
    (hf : NoCascadeFault f) : ∃ r, (deleteCommunityCascade f db c).2 = .ok r := by
  have hfs : cascadeOrder.findSome? f.deleteMany = none :=
    List.findSome?_eq_none_iff.mpr (fun k _ => hf.1 k)
  simp only [deleteCommunityCascade, hfs, hf.1 .notifications, hf.2]
  split <;> exact ⟨_, rfl⟩

theorem Db.eq_of_fields (a b : Db) (h1 : a.communities = b.communities) (h2 : a.docs = b.docs)
    (h3 : a.interestForms = b.interestForms) (h4 : a.backups = b.backups)
    (h5 : a.auditLogs = b.auditLogs) : a = b := by
  cases a; cases b; simp_all

theorem findByIdAndDelete_absent (c : ObjectId) (l : List CommunityDoc)
    (hu : (l.map (fun x => x._id)).Nodup) : ∀ x ∈ findByIdAndDelete c l, x._id ≠ c := by
  induction l with
  | nil => intro x hx; simp [findByIdAndDelete] at hx
  | cons a as ih =>
    simp only [List.map_cons, List.nodup_cons] at hu
    intro x hx
    unfold findByIdAndDelete at hx
    by_cases ha : a._id = c
    · simp only [ha, beq_self_eq_true, if_true] at hx
      intro hxc
      exact hu.1 (List.mem_map.mpr ⟨x, hx, by rw [hxc, ha]⟩)
    · have e : (a._id == c) = false := by simp [ha]
      simp only [e, Bool.false_eq_true, if_false, List.mem_cons] at hx
      rcases hx with rfl | hx
      · exact ha
      · exact ih hu.2 x hx

theorem findByIdAndDelete_of_absent (c : ObjectId) (l : List CommunityDoc)
    (h : ∀ x ∈ l, x._id ≠ c) : findByIdAndDelete c l = l ∧ l.find? (fun x => x._id == c) = none := by
  induction l with
  | nil => simp [findByIdAndDelete]
  | cons a as ih =>
    have ha : (a._id == c) = false := by simpa using h a (List.mem_cons_self _ _)
    have := ih (fun x hx => h x (List.mem_cons_of_mem _ hx))
    unfold findByIdAndDelete
    simp [ha, this.1, this.2]

theorem collectNotificationIds_nil : collectNotificationIds [] = [] := rfl

theorem filter_not_eq_self (p : Doc → Bool) (l : List Doc) (h : ∀ d ∈ l, p d = false) :
    l.filter (fun d => !p d) = l := by
  apply List.filter_eq_self.mpr
  intro d hd
  simp [h d hd]

theorem filter_eq_nil_of_false (p : Doc → Bool) (l : List Doc) (h : ∀ d ∈ l, p d = false) :
    l.filter p = [] := by
  apply List.filter_eq_nil_iff.mpr
  intro d hd
  simp [h d hd]

theorem cascadeNotificationIds_of_no_owner (db : Db) (c : ObjectId)
    (h : ∀ k, k ≠ .notifications → ∀ d ∈ db.docs k, cascadeFilter c k d = false) :
    cascadeNotificationIds db c = [] := by
  have h1 : (db.docs .residents).filter (fun d => d.community == some c) = [] :=
    filter_eq_nil_of_false _ _ (fun d hd => by
      simpa [cascadeFilter] using h .residents (by decide) d hd)
  have h2 : (db.docs .managers).filter (fun d => d.assignedCommunity == some c) = [] :=
    filter_eq_nil_of_false _ _ (fun d hd => by
      have := h .managers (by decide) d hd
      simp only [cascadeFilter, Bool.or_eq_false_iff] at this
      exact this.1)
  have h3 : (db.docs .workers).filter (fun d => d.community == some c) = [] :=
    filter_eq_nil_of_false _ _ (fun d hd => by
      have := h .workers (by decide) d hd
      simp only [cascadeFilter, Bool.or_eq_false_iff] at this
      exact this.1)
  have h4 : (db.docs .securities).filter (fun d => d.community == some c) = [] :=
    filter_eq_nil_of_false _ _ (fun d hd => by
      have := h .securities (by decide) d hd
      simp only [cascadeFilter, Bool.or_eq_false_iff] at this
      exact this.1)
  unfold cascadeNotificationIds
  rw [h1, h2, h3, h4]
  rfl

theorem deleteCommunityCascade_of_nothing_owned (f : Faults) (db : Db) (c : ObjectId)
    (hf : NoCascadeFault f)
    (hdocs : ∀ k, k ≠ .notifications → ∀ d ∈ db.docs k, cascadeFilter c k d = false)
    (hcomm : ∀ x ∈ db.communities, x._id ≠ c) :
    deleteCommunityCascade f db c =
      (db, .ok { deletedCommunityId := none, deletedCounts := fun _ => 0 }) := by
  obtain ⟨r, hr⟩ := deleteCommunityCascade_succeeds f db c hf
  obtain ⟨h1, h2, h3, h4, h5, h6⟩ := deleteCommunityCascade_ok f db c r hr
  have hfr := deleteCommunityCascade_frame f db c
  have hbk := deleteCommunityCascade_backups f db c
  have hids := cascadeNotificationIds_of_no_owner db c hdocs
  have hfd := findByIdAndDelete_of_absent c db.communities hcomm
  have hdb : (deleteCommunityCascade f db c).1 = db := by
    apply Db.eq_of_fields
    · rw [h3, hfd.1]
    · funext k
      by_cases hk : k = .notifications
      · subst hk
        rw [h2, hids]
        simp
      · rw [h1 k hk]
        exact filter_not_eq_self _ _ (hdocs k hk)
    · exact hfr.1
    · exact hbk
    · exact hfr.2
  have hres : r = { deletedCommunityId := none, deletedCounts := fun _ => 0 } := by
    cases r with
    | mk i cnt =>
      simp only at h4 h5 h6
      congr
      · rw [h4, hfd.2]; rfl
      · funext k
        by_cases hk : k = .notifications
        · subst hk
          rw [h6, hids]
          simp
        · rw [h5 k hk, filter_eq_nil_of_false _ _ (hdocs k hk)]
          rfl
  apply Prod.ext
  · exact hdb
  · rw [hr, hres]

theorem deleteCommunity_run (env : Env) (db : Db) (req : Req) (c : CommunityDoc)
    (r : CascadeResult)
    (hc : getCommunityById db req.id = some c) (hf : env.faults.backupCreate = none)
    (hr : (deleteCommunityCascade env.faults
      { db with backups := db.backups ++ [newBackup env db req c] } req.id).2 = .ok r) :
    (deleteCommunity env db req).2 =
      { status := 200, success := true
        message := "Community deleted successfully. Can be restored within 30 days."
        body := .deleted r.deletedCounts (newBackup env db req c)._id
          (newBackup env db req c).permanentDeleteAt } ∧
    (deleteCommunity env db req).1.communities =
      (deleteCommunityCascade env.faults
        { db with backups := db.backups ++ [newBackup env db req c] } req.id).1.communities ∧
    (deleteCommunity env db req).1.docs =
      (deleteCommunityCascade env.faults
        { db with backups := db.backups ++ [newBackup env db req c] } req.id).1.docs ∧
    (deleteCommunity env db req).1.backups = db.backups ++ [newBackup env db req c] := by
  have hbk := deleteCommunityCascade_backups env.faults
    { db with backups := db.backups ++ [newBackup env db req c] } req.id
  rcases hcas : deleteCommunityCascade env.faults
    { db with backups := db.backups ++ [newBackup env db req c] } req.id with ⟨db2, res⟩
  rw [hcas] at hr hbk
  simp only at hr hbk
  subst hr
  simp only [deleteCommunity, hc, hf, hcas]
  refine ⟨trivial, ?_, ?_, ?_⟩
  · rw [createAuditLog_communities]
  · rw [createAuditLog_docs]
  · rw [createAuditLog_backups, hbk]

theorem deleteCommunity_backups (env : Env) (db : Db) (req : Req) :
    ((deleteCommunity env db req).1.backups = db.backups ∧
      (deleteCommunity env db req).2.status ≠ 200) ∨
    ∃ c, getCommunityById db req.id = some c ∧
      (deleteCommunity env db req).1.backups = db.backups ++ [newBackup env db req c] ∧
      ((deleteCommunity env db req).2.status = 200 →
        (deleteCommunity env db req).2.backupId? = some (newBackup env db req c)._id ∧
        (deleteCommunity env db req).2.canRestoreUntil? =
          some (newBackup env db req c).permanentDeleteAt) := by
  cases hc : getCommunityById db req.id with
  | none => left; simp [deleteCommunity, hc]
  | some c =>
    cases hf : env.faults.backupCreate with
    | some msg => left; simp [deleteCommunity, hc, hf]
    | none =>
      right
      refine ⟨c, rfl, ?_⟩
      have hbk := deleteCommunityCascade_backups env.faults
        { db with backups := db.backups ++ [newBackup env db req c] } req.id
      rcases hcas : deleteCommunityCascade env.faults
        { db with backups := db.backups ++ [newBackup env db req c] } req.id with ⟨db2, res⟩
      rw [hcas] at hbk
      simp only at hbk
      cases res with
      | error msg =>
        simp only [deleteCommunity, hc, hf, hcas]
        exact ⟨hbk, by intro h; simp at h⟩
      | ok r =>
        have hrun := deleteCommunity_run env db req c r hc hf (by rw [hcas])
        refine ⟨hrun.2.2.2, fun _ => ?_⟩
        rw [hrun.1]
        exact ⟨rfl, rfl⟩

theorem restoreLists_counts (f : Faults) (cd : CommunityData) (ks : List Coll) :
    ∀ (db : Db) (rc : RestoredCounts), (restoreLists f cd ks db rc).2.2 = none →
      (restoreLists f cd ks db rc).2.1.community = rc.community ∧
      ∀ k, (restoreLists f cd ks db rc).2.1.lists k =
        if k ∈ ks ∧ (cd.lists k).length > 0 then some (cd.lists k).length else rc.lists k := by
  induction ks with
  | nil => intro db rc _; simp [restoreLists]
  | cons k ks ih =>
    intro db rc hok
    unfold restoreLists at hok ⊢
    split at hok
    · rename_i hlen
      simp only [hlen, if_true]
      split at hok
      · rename_i coll hins
        obtain ⟨h1, h2⟩ := ih _ _ hok
        refine ⟨h1, ?_⟩
        intro j
        rw [h2 j]
        by_cases hjk : j = k
        · subst hjk
          simp [hlen]
        · simp [hjk]
      · simp at hok
    · rename_i hlen
      simp only [hlen, if_false]
      obtain ⟨h1, h2⟩ := ih _ _ hok
      refine ⟨h1, ?_⟩
      intro j
      rw [h2 j]
      by_cases hjk : j = k
      · subst hjk
        simp [hlen]
      · simp [hjk]

theorem createAuditLog_interestForms (f : Faults) (db : Db) (e : AuditLog) :
    (createAuditLog f db e).1.interestForms = db.interestForms := by
  unfold createAuditLog; split <;> rfl

theorem createAuditLog_sameData (f g : Faults) (db : Db) (e : AuditLog) :
    SameData (createAuditLog f db e).1 (createAuditLog g db e).1 := by
  unfold SameData
  simp only [createAuditLog_communities, createAuditLog_docs, createAuditLog_backups,
    createAuditLog_interestForms, and_self]

theorem SameData.refl (db : Db) : SameData db db := ⟨rfl, rfl, rfl, rfl⟩

theorem deleteCommunity_audit_fault (env : Env) (db : Db) (req : Req) (msg : String) :
    (deleteCommunity (withAuditFault env msg) db req).2 =
      (deleteCommunity (withoutAuditFault env) db req).2 ∧
    SameData (deleteCommunity (withAuditFault env msg) db req).1
      (deleteCommunity (withoutAuditFault env) db req).1 := by
  have hcas : ∀ (d : Db) (c : ObjectId),
      deleteCommunityCascade (withAuditFault env msg).faults d c =
        deleteCommunityCascade (withoutAuditFault env).faults d c := fun _ _ => rfl
  have hnew : ∀ c, newBackup (withAuditFault env msg) db req c =
      newBackup (withoutAuditFault env) db req c := fun _ => rfl
  have hbc : (withAuditFault env msg).faults.backupCreate =
      (withoutAuditFault env).faults.backupCreate := rfl
  cases hc : getCommunityById db req.id with
  | none =>
    simp only [deleteCommunity, hc]
    exact ⟨trivial, SameData.refl db⟩
  | some c =>
    cases hf : (withoutAuditFault env).faults.backupCreate with
    | some m =>
      simp only [deleteCommunity, hc, hbc, hf]
      exact ⟨trivial, SameData.refl db⟩
    | none =>
      rcases hr : deleteCommunityCascade (withoutAuditFault env).faults
        { db with backups := db.backups ++ [newBackup (withoutAuditFault env) db req c] }
        req.id with ⟨db2, res⟩
      cases res with
      | error m =>
        simp only [deleteCommunity, hc, hbc, hf, hcas, hnew, hr]
        exact ⟨trivial, SameData.refl db2⟩
      | ok r =>
        simp only [deleteCommunity, hc, hbc, hf, hcas, hnew, hr]
        exact ⟨trivial, createAuditLog_sameData _ _ _ _⟩

theorem restoreLists_congr (f g : Faults) (h1 : f.insertMany = g.insertMany)
    (h2 : f.insertDoc = g.insertDoc) (cd : CommunityData) (ks : List Coll) :
    ∀ (db : Db) (rc : RestoredCounts),
      restoreLists f cd ks db rc = restoreLists g cd ks db rc := by
  induction ks with
  | nil => intro db rc; rfl
  | cons k ks ih =>
    intro db rc
    unfold restoreLists
    simp only [h1, h2, ih]

theorem restoreCommunity_audit_fault (env : Env) (db : Db) (req : Req) (msg : String) :
    (restoreCommunity (withAuditFault env msg) db req).2 =
      (restoreCommunity (withoutAuditFault env) db req).2 ∧
    SameData (restoreCommunity (withAuditFault env msg) db req).1
      (restoreCommunity (withoutAuditFault env) db req).1 := by
  have hnow : (withAuditFault env msg).now = (withoutAuditFault env).now := rfl
  have hcc : (withAuditFault env msg).faults.communityCreate =
      (withoutAuditFault env).faults.communityCreate := rfl
  have hbs : (withAuditFault env msg).faults.backupSave =
      (withoutAuditFault env).faults.backupSave := rfl
  have hrl := restoreLists_congr (withAuditFault env msg).faults (withoutAuditFault env).faults
    rfl rfl
  unfold restoreCommunity
  simp only [hnow, hcc, hbs, hrl]
  repeat' split
  all_goals exact ⟨rfl, SameData.refl _⟩

theorem deleteCommunity_auditLogs_of_fault (env : Env) (db : Db) (req : Req) (msg : String) :
    (deleteCommunity (withAuditFault env msg) db req).1.auditLogs = db.auditLogs := by
  unfold deleteCommunity
  simp only
  split
  · rfl
  · split
    · rfl
    · split
      · rename_i db2 m hcas
        show db2.auditLogs = db.auditLogs
        have e : _ = db2 := congrArg Prod.fst hcas
        rw [← e]
        exact (deleteCommunityCascade_frame _ _ _).2
      · rename_i db2 r hcas
        show db2.auditLogs = db.auditLogs
        have e : _ = db2 := congrArg Prod.fst hcas
        rw [← e]
        exact (deleteCommunityCascade_frame _ _ _).2

theorem restoreCommunity_auditLogs_of_fault (env : Env) (db : Db) (req : Req) (msg : String) :
    (restoreCommunity (withAuditFault env msg) db req).1.auditLogs = db.auditLogs := by
  cases hb : findBackupById db req.id with
  | none => simp only [restoreCommunity, hb]
  | some b =>
    by_cases h1 : b.status = .restored
    · rw [restoreCommunity_of_restored _ db req b hb h1]
    by_cases h2 : b.status = .permanently_deleted
    · rw [restoreCommunity_of_permanently_deleted _ db req b hb h2]
    by_cases h3 : (withAuditFault env msg).now > b.permanentDeleteAt
    · simp [restoreCommunity, hb, h1, h2, h3]
    rcases Community.create_cases (withAuditFault env msg).faults.communityCreate
        db.communities b.communityData.community with hc | ⟨m, hc⟩
    · rcases hr : restoreLists (withAuditFault env msg).faults b.communityData restoreOrder
          { db with communities := db.communities ++ [b.communityData.community] }
          { community := some 1, lists := fun _ => none } with ⟨db1, rc, ok⟩
      have e : _ = db1 := congrArg Prod.fst hr
      have hfr : db1.auditLogs = db.auditLogs := by
        rw [← e]
        exact (restoreLists_frame _ _ _ _ _).2.2.1
      cases ok with
      | some m =>
        simp only [restoreCommunity, hb, h1, h2, h3, hc, hr, if_false]
        exact hfr
      | none =>
        cases hsave : (withAuditFault env msg).faults.backupSave with
        | some m =>
          simp only [restoreCommunity, hb, h1, h2, h3, hc, hr, hsave, if_false]
          exact hfr
        | none =>
          simp only [restoreCommunity, hb, h1, h2, h3, hc, hr, hsave, if_false]
          exact hfr
    · simp only [restoreCommunity, hb, h1, h2, h3, hc, if_false]

theorem getElem?_saveBackup (saved : Backup) (bs : List Backup) (i : Nat) (x : Backup)
    (hx : bs[i]? = some x) :
    (saveBackup saved bs)[i]? = some x ∨
      (bs.find? (fun y => y._id == saved._id) = some x ∧
        (saveBackup saved bs)[i]? = some saved) := by
  induction bs generalizing i with
  | nil => simp at hx
  | cons a as ih =>
    unfold saveBackup
    by_cases ha : (a._id == saved._id) = true
    · simp only [ha, if_true]
      cases i with
      | zero =>
        right
        simp only [List.getElem?_cons_zero, Option.some.injEq] at hx
        subst hx
        simp [List.find?_cons, ha]
      | succ j =>
        left
        simpa using hx
    · have ha' : (a._id == saved._id) = false := by simpa using ha
      simp only [ha', Bool.false_eq_true, if_false]
      cases i with
      | zero => left; simpa using hx
      | succ j =>
        simp only [List.getElem?_cons_succ] at hx ⊢
        rcases ih j hx with h | h
        · exact Or.inl h
        · right
          simp only [List.find?_cons, ha']
          exact h

theorem restoreCommunity_backups (env : Env) (db : Db) (req : Req) :
    (restoreCommunity env db req).1.backups = db.backups ∨
    ∃ b, findBackupById db req.id = some b ∧ b.status = .pending ∧
      (restoreCommunity env db req).1.backups = saveBackup (markRestored env req b) db.backups := by
  by_cases h : (restoreCommunity env db req).2.status = 200
  · obtain ⟨b, hb, hp, _, _, _, _, hbk, _⟩ := restoreCommunity_ok env db req h
    exact Or.inr ⟨b, hb, hp, hbk⟩
  · left
    cases hb : findBackupById db req.id with
    | none => simp only [restoreCommunity, hb]
    | some b =>
      by_cases h1 : b.status = .restored
      · rw [restoreCommunity_of_restored env db req b hb h1]
      by_cases h2 : b.status = .permanently_deleted
      · rw [restoreCommunity_of_permanently_deleted env db req b hb h2]
      by_cases h3 : env.now > b.permanentDeleteAt
      · simp [restoreCommunity, hb, h1, h2, h3]
      rcases Community.create_cases env.faults.communityCreate db.communities
          b.communityData.community with hc | ⟨m, hc⟩
      · rcases hr : restoreLists env.faults b.communityData restoreOrder
            { db with communities := db.communities ++ [b.communityData.community] }
            { community := some 1, lists := fun _ => none } with ⟨db1, rc, ok⟩
        have e : _ = db1 := congrArg Prod.fst hr
        have hfr : db1.backups = db.backups := by
          rw [← e]
          exact (restoreLists_frame _ _ _ _ _).2.1
        cases ok with
        | some m =>
          simp only [restoreCommunity, hb, h1, h2, h3, hc, hr, if_false]
          exact hfr
        | none =>
          cases hsave : env.faults.backupSave with
          | some m =>
            simp only [restoreCommunity, hb, h1, h2, h3, hc, hr, hsave, if_false]
            exact hfr
          | none =>
            exfalso
            apply h
            simp only [restoreCommunity, hb, h1, h2, h3, hc, hr, hsave, if_false]
      · simp only [restoreCommunity, hb, h1, h2, h3, hc, if_false]

theorem getElem?_append_of_some (bs : List Backup) (x b : Backup) (i : Nat)
    (h : bs[i]? = some b) : (bs ++ [x])[i]? = some b := by
  have hi : i < bs.length := by
    by_contra hn
    rw [List.getElem?_eq_none (Nat.le_of_not_lt hn)] at h
    cases h
  rw [List.getElem?_append_left hi]
  exact h

theorem mem_saveBackup (saved : Backup) (bs : List Backup) (x : Backup)
    (h : x ∈ saveBackup saved bs) : x = saved ∨ x ∈ bs := by
  induction bs with
  | nil => simp [saveBackup] at h
  | cons a as ih =>
    unfold saveBackup at h
    split at h
    · rcases List.mem_cons.mp h with h | h
      · exact Or.inl h
      · exact Or.inr (List.mem_cons_of_mem _ h)
    · rcases List.mem_cons.mp h with h | h
      · exact Or.inr (h ▸ List.mem_cons_self _ _)
      · rcases ih h with h | h
        · exact Or.inl h
        · exact Or.inr (List.mem_cons_of_mem _ h)

theorem newBackup_snapshotOwned (env : Env) (db : Db) (req : Req) (c : CommunityDoc)
    (hc : getCommunityById db req.id = some c) : SnapshotOwned (newBackup env db req c) := by
  intro k d hd
  have hid : c._id = req.id := getCommunityById_id db req.id c hc
  simp only [newBackup, List.mem_filter] at hd ⊢
  rw [hid]
  have hf := hd.2
  cases k <;> simpa [snapshotFilter, communityReference] using hf

theorem reachable_snapshotOwned (db : Db) (h : Reachable db) :
    ∀ b ∈ db.backups, SnapshotOwned b := by
  induction h with
  | init db h => intro b hb; rw [h] at hb; cases hb
  | delete env db req _ ih =>
    intro b hb
    rcases deleteCommunity_backups env db req with ⟨hbk, _⟩ | ⟨c, hc, hbk, _⟩
    · rw [hbk] at hb; exact ih b hb
    · rw [hbk] at hb
      rcases List.mem_append.mp hb with hb | hb
      · exact ih b hb
      · rw [List.mem_singleton.mp hb]
        exact newBackup_snapshotOwned env db req c hc
  | restore env db req _ ih =>
    intro b hb
    rcases restoreCommunity_backups env db req with hbk | ⟨b0, hb0, _, hbk⟩
    · rw [hbk] at hb; exact ih b hb
    · rw [hbk] at hb
      rcases mem_saveBackup _ _ _ hb with hb | hb
      · rw [hb]
        have h0 : SnapshotOwned b0 := ih b0 (List.mem_of_find?_eq_some hb0)
        exact h0
      · exact ih b hb
  | other db db2 _ hbk ih =>
    intro b hb
    obtain ⟨b0, hb0, he⟩ := hbk b hb
    have h0 : SnapshotOwned b0 := ih b0 hb0
    unfold SnapshotOwned at h0 ⊢
    rw [he]
    exact h0

/-! ## Cascade, backup state, restored counts and audit failures -/

/-- C6: in every state the store can be in (every stored backup was written by
`deleteCommunity`), on every successful `restoreCommunity` the Community of the snapshot is
created under the identifier `c` that the response reports, every record of every snapshot
list is inserted as it is stored in the snapshot (each collection after the restore is the
collection before it followed by the snapshot list), and the community reference of every
inserted record (`assignedCommunity` for managers, `community` otherwise) is `c`, the
identifier of the Community created by that restore. -/
theorem restoreCommunity_inserts_snapshot_as_stored (env : Env) (db : Db) (req : Req)
    (hreach : Reachable db)
    (hok : (restoreCommunity env db req).2.status = 200) :
    ∃ b c, findBackupById db req.id = some b ∧
      (restoreCommunity env db req).2.communityId? = some c ∧
      (restoreCommunity env db req).1.communities =
        db.communities ++ [b.communityData.community] ∧
      b.communityData.community._id = c ∧
      (∀ k, (restoreCommunity env db req).1.docs k = db.docs k ++ b.communityData.lists k) ∧
      ∀ k, ∀ d ∈ b.communityData.lists k, communityReference k d = some c := by
  obtain ⟨b, hb, _, _, _, hcomm, hdocs, _, hresp⟩ := restoreCommunity_ok env db req hok
  refine ⟨b, b.communityData.community._id, hb, hresp, hcomm, rfl, hdocs, ?_⟩
  exact reachable_snapshotOwned db hreach b (List.mem_of_find?_eq_some hb)

/-- C6 at a concrete state: community `1` with three residents and a worker is deleted at
instant `100` and its backup restored at instant `200`. -/
theorem restoreCommunity_inserts_snapshot_as_stored_witness :
    ∃ b c, findBackupById (afterDelete residentsAndWorker).1 sampleReq.id = some b ∧
      (afterRestore residentsAndWorker).2.communityId? = some c ∧
      (afterRestore residentsAndWorker).1.communities =
        (afterDelete residentsAndWorker).1.communities ++ [b.communityData.community] ∧
      b.communityData.community._id = c ∧
      (∀ k, (afterRestore residentsAndWorker).1.docs k =
        (afterDelete residentsAndWorker).1.docs k ++ b.communityData.lists k) ∧
      ∀ k, ∀ d ∈ b.communityData.lists k, communityReference k d = some c :=
  restoreCommunity_inserts_snapshot_as_stored { now := 200 } (afterDelete residentsAndWorker).1
    sampleReq (Reachable.delete _ _ _ (Reachable.init _ rfl)) (by decide)


/-- C11: the only transition of a stored backup made by this code is pending -> restored.
For every stored backup `b` (at position `i` of the collection), a `deleteCommunity` request
leaves it as it is, and a `restoreCommunity` request leaves it as it is or, when it is
pending, replaces it by the same record with status restored, `restoredAt` and `restoredBy`
set. In particular a backup whose status is restored or permanently_deleted is left unchanged
(status, `restoredAt`, `restoredBy`, snapshot) by every request. -/
theorem backup_status_transitions (env : Env) (db : Db) (req : Req) (i : Nat) (b : Backup)
    (hb : db.backups[i]? = some b) :
    (deleteCommunity env db req).1.backups[i]? = some b ∧
    ((restoreCommunity env db req).1.backups[i]? = some b ∨
      (b.status = .pending ∧
        (restoreCommunity env db req).1.backups[i]? = some (markRestored env req b))) ∧
    (b.status = .restored ∨ b.status = .permanently_deleted →
      (restoreCommunity env db req).1.backups[i]? = some b) := by
  have hdel : (deleteCommunity env db req).1.backups[i]? = some b := by
    rcases deleteCommunity_backups env db req with h | ⟨c, _, h, _⟩
    · rw [h.1]; exact hb
    · rw [h]; exact getElem?_append_of_some _ _ _ _ hb
  have hres : (restoreCommunity env db req).1.backups[i]? = some b ∨
      (b.status = .pending ∧
        (restoreCommunity env db req).1.backups[i]? = some (markRestored env req b)) := by
    rcases restoreCommunity_backups env db req with h | ⟨b0, hfind, hpend, h⟩
    · left; rw [h]; exact hb
    · rw [h]
      have hid : b0._id = req.id := by
        have := List.find?_some hfind
        simpa using this
      rcases getElem?_saveBackup (markRestored env req b0) db.backups i b hb with h1 | ⟨h1, h2⟩
      · exact Or.inl h1
      · have hsame : (markRestored env req b0)._id = req.id := hid
        rw [hsame] at h1
        unfold findBackupById at hfind
        rw [hfind] at h1
        have hbe : b0 = b := Option.some.inj h1
        subst hbe
        exact Or.inr ⟨hpend, h2⟩
  refine ⟨hdel, hres, ?_⟩
  intro hterm
  rcases hres with h | ⟨hp, _⟩
  · exact h
  · rcases hterm with ht | ht <;> rw [hp] at ht <;> cases ht

/-- C11 at a concrete state: the restored backup `1` of community `1` stays as it is under a
further delete of the re-created community and under a further restore request. -/
theorem backup_status_transitions_witness :
    ((deleteCommunity { now := 400 } (afterRestore residentsAndWorker).1
      sampleReq).1.backups[0]?).map (fun b => (b.status, b.restoredAt)) =
      some (.restored, some 200) ∧
    ((restoreCommunity { now := 400 } (afterRestore residentsAndWorker).1
      sampleReq).1.backups[0]?).map (fun b => (b.status, b.restoredAt)) =
      some (.restored, some 200) :=
  have h := backup_status_transitions { now := 400 } (afterRestore residentsAndWorker).1
    sampleReq 0
    (markRestored { now := 200 } sampleReq
      (newBackup { now := 100 } (sampleDb residentsAndWorker) sampleReq sampleCommunity)) rfl
  ⟨by rw [h.1]; rfl, by rw [h.2.2 (Or.inl rfl)]; rfl⟩

/-- C12: when `deleteCommunityCascade(c)` returns, a Worker record with
`communityAssigned = c` and no `community` field is no longer in the Worker collection, and
it is one of the records counted by `deletedCounts.workers`. -/
theorem cascade_deletes_worker_with_communityAssigned (f : Faults) (db : Db) (c : ObjectId)
    (r : CascadeResult) (w : Doc)
    (h : (deleteCommunityCascade f db c).2 = .ok r)
    (hw : w ∈ db.docs .workers) (ha : w.communityAssigned = some c) (_hc : w.community = none) :
    w ∉ (deleteCommunityCascade f db c).1.docs .workers ∧
    w ∈ (db.docs .workers).filter (cascadeFilter c .workers) ∧
    r.deletedCounts .workers = ((db.docs .workers).filter (cascadeFilter c .workers)).length ∧
    0 < r.deletedCounts .workers := by
  obtain ⟨hdocs, _, _, _, hcnt, _⟩ := deleteCommunityCascade_ok f db c r h
  have hm : cascadeFilter c .workers w = true := by simp [cascadeFilter, ha]
  have hin : w ∈ (db.docs .workers).filter (cascadeFilter c .workers) :=
    List.mem_filter.mpr ⟨hw, hm⟩
  refine ⟨?_, hin, hcnt .workers (by decide), ?_⟩
  · rw [hdocs .workers (by decide)]
    intro hmem
    have := (List.mem_filter.mp hmem).2
    simp [hm] at this
  · rw [hcnt .workers (by decide)]
    exact List.length_pos_of_mem hin

/-- C12 at a concrete state: the Worker `14` of community `1`, stored with
`communityAssigned` only. -/
theorem cascade_deletes_worker_with_communityAssigned_witness :
    ({ _id := 14, communityAssigned := some 1, notifications := [20] } : Doc) ∉
      (deleteCommunityCascade {} (sampleDb legacyWorker) 1).1.docs .workers ∧
    0 < (CascadeResult.ofExcept
      (deleteCommunityCascade {} (sampleDb legacyWorker) 1).2).deletedCounts .workers :=
  have h := cascade_deletes_worker_with_communityAssigned {} (sampleDb legacyWorker) 1
    (CascadeResult.ofExcept (deleteCommunityCascade {} (sampleDb legacyWorker) 1).2)
    { _id := 14, communityAssigned := some 1, notifications := [20] } rfl (by decide) rfl rfl
  ⟨h.1, h.2.2.2⟩

/-- C13, evaluated at the failing state: the Worker `14` references community `1` through
`communityAssigned` only and lists the Notification `20`. `deleteCommunityCascade(1)` deletes
the worker (`deletedCounts.workers = 1`) and leaves the Notification `20` in its collection
(`deletedCounts.notifications = 0`): the owner reads look at `community` only. -/
theorem cascade_keeps_notification_of_legacy_worker :
    (sampleDb legacyWorker).docs .workers =
      [{ _id := 14, communityAssigned := some 1, notifications := [20] }] ∧
    (deleteCommunityCascade {} (sampleDb legacyWorker) 1).1.docs .workers = [] ∧
    (deleteCommunityCascade {} (sampleDb legacyWorker) 1).1.docs .notifications =
      [{ _id := 20 }] ∧
    ((deleteCommunityCascade {} (sampleDb legacyWorker) 1).2.toOption.map
      (fun r => (r.deletedCounts .workers, r.deletedCounts .notifications))) = some (1, 0) := by
  decide

/-- C14: when `deleteCommunityCascade(c)` returns (the `_id`s of the Community collection
being distinct), no Community with id `c` is stored, no record with `community = c` is left
among Ad, Amenity, CommonSpaces, Issue, Payment, Visitor, VisitorPreApproval, Resident, Worker
and Security, no record with `communityId = c` among CommunitySubscription and Payment, and
no CommunityManager with `assignedCommunity = c`. -/
theorem cascade_leaves_no_dependent (f : Faults) (db : Db) (c : ObjectId) (r : CascadeResult)
    (h : (deleteCommunityCascade f db c).2 = .ok r)
    (hu : (db.communities.map (fun x => x._id)).Nodup) :
    (∀ x ∈ (deleteCommunityCascade f db c).1.communities, x._id ≠ c) ∧
    (∀ k ∈ [Coll.ads, .amenities, .commonSpaces, .issues, .payments, .visitors, .preapprovals,
        .residents, .workers, .securities],
      ∀ d ∈ (deleteCommunityCascade f db c).1.docs k, d.community ≠ some c) ∧
    (∀ k ∈ [Coll.subscriptions, .payments],
      ∀ d ∈ (deleteCommunityCascade f db c).1.docs k, d.communityId ≠ some c) ∧
    (∀ d ∈ (deleteCommunityCascade f db c).1.docs .managers, d.assignedCommunity ≠ some c) := by
  obtain ⟨hdocs, _, hcomm, _, _, _⟩ := deleteCommunityCascade_ok f db c r h
  have key : ∀ k, k ≠ .notifications → ∀ d ∈ (deleteCommunityCascade f db c).1.docs k,
      cascadeFilter c k d = false := by
    intro k hk d hd
    rw [hdocs k hk] at hd
    simpa using (List.mem_filter.mp hd).2
  refine ⟨?_, ?_, ?_, ?_⟩
  · rw [hcomm]; exact findByIdAndDelete_absent c db.communities hu
  · intro k hk d hd hdc
    have hne : k ≠ .notifications := by
      intro e; subst e; simp at hk
    have := key k hne d hd
    simp only [List.mem_cons, List.mem_singleton, List.not_mem_nil, or_false] at hk
    rcases hk with rfl | rfl | rfl | rfl | rfl | rfl | rfl | rfl | rfl | rfl <;>
      simp [cascadeFilter, hdc] at this
  · intro k hk d hd hdc
    have hne : k ≠ .notifications := by
      intro e; subst e; simp at hk
    have := key k hne d hd
    simp only [List.mem_cons, List.mem_singleton, List.not_mem_nil, or_false] at hk
    rcases hk with rfl | rfl <;> simp [cascadeFilter, hdc] at this
  · intro d hd hdc
    have := key .managers (by decide) d hd
    simp [cascadeFilter, hdc] at this

/-- C14 at a concrete state: community `1` with three residents and one worker. -/
theorem cascade_leaves_no_dependent_witness :
    (∀ x ∈ (deleteCommunityCascade {} (sampleDb residentsAndWorker) 1).1.communities,
      x._id ≠ 1) ∧
    ∀ d ∈ (deleteCommunityCascade {} (sampleDb residentsAndWorker) 1).1.docs .residents,
      d.community ≠ some 1 :=
  have h := cascade_leaves_no_dependent {} (sampleDb residentsAndWorker) 1
    (CascadeResult.ofExcept (deleteCommunityCascade {} (sampleDb residentsAndWorker) 1).2)
    rfl (by decide)
  ⟨h.1, h.2.1 .residents (by decide)⟩

/-- C15: after a `deleteCommunityCascade(c)` that returned (the `_id`s of the Community
collection being distinct), a second `deleteCommunityCascade(c)` in which no store operation
is rejected does not throw, returns `deletedCommunityId` null and a `deletedCounts` map whose
13 counts are 0, and leaves the database as the first call left it. -/
theorem cascade_second_call_is_noop (f f2 : Faults) (db : Db) (c : ObjectId)
    (r : CascadeResult)
    (h : (deleteCommunityCascade f db c).2 = .ok r)
    (hu : (db.communities.map (fun x => x._id)).Nodup) (hf2 : NoCascadeFault f2) :
    deleteCommunityCascade f2 (deleteCommunityCascade f db c).1 c =
      ((deleteCommunityCascade f db c).1,
        .ok { deletedCommunityId := none, deletedCounts := fun _ => 0 }) := by
  obtain ⟨hdocs, _, hcomm, _, _, _⟩ := deleteCommunityCascade_ok f db c r h
  apply deleteCommunityCascade_of_nothing_owned f2 _ c hf2
  · intro k hk d hd
    rw [hdocs k hk] at hd
    simpa using (List.mem_filter.mp hd).2
  · rw [hcomm]
    exact findByIdAndDelete_absent c db.communities hu

/-- C15 at a concrete state: community `1` with three residents and one worker, deleted
twice. -/
theorem cascade_second_call_is_noop_witness :
    deleteCommunityCascade {} (deleteCommunityCascade {} (sampleDb residentsAndWorker) 1).1 1 =
      ((deleteCommunityCascade {} (sampleDb residentsAndWorker) 1).1,
        .ok { deletedCommunityId := none, deletedCounts := fun _ => 0 }) :=
  cascade_second_call_is_noop {} {} (sampleDb residentsAndWorker) 1
    (CascadeResult.ofExcept (deleteCommunityCascade {} (sampleDb residentsAndWorker) 1).2)
    rfl (by decide) ⟨fun _ => rfl, rfl⟩

/-- C16: when `deleteCommunityCascade(c)` returns, `deletedCounts[t]` is, for each of the
13 types `t`, the number of records of type `t` that were stored before the call and are not
stored after it. -/
theorem cascade_counts_removed (f : Faults) (db : Db) (c : ObjectId) (r : CascadeResult)
    (h : (deleteCommunityCascade f db c).2 = .ok r) :
    ∀ k, r.deletedCounts k = removedCount db (deleteCommunityCascade f db c).1 k := by
  obtain ⟨hdocs, hnot, _, _, hcnt, hcntn⟩ := deleteCommunityCascade_ok f db c r h
  intro k
  unfold removedCount
  by_cases hk : k = .notifications
  · subst hk
    rw [hcntn, hnot]
    congr 1
    apply List.filter_congr
    intro d hd
    simp [List.mem_filter, hd]
  · rw [hcnt k hk, hdocs k hk]
    congr 1
    apply List.filter_congr
    intro d hd
    simp [List.mem_filter, hd]

/-- C16 at a concrete state: community `1` with three residents and one worker. -/
theorem cascade_counts_removed_witness :
    (CascadeResult.ofExcept
      (deleteCommunityCascade {} (sampleDb residentsAndWorker) 1).2).deletedCounts .residents =
      removedCount (sampleDb residentsAndWorker)
        (deleteCommunityCascade {} (sampleDb residentsAndWorker) 1).1 .residents ∧
    removedCount (sampleDb residentsAndWorker)
      (deleteCommunityCascade {} (sampleDb residentsAndWorker) 1).1 .residents = 3 :=
  ⟨cascade_counts_removed {} (sampleDb residentsAndWorker) 1
    (CascadeResult.ofExcept (deleteCommunityCascade {} (sampleDb residentsAndWorker) 1).2)
    rfl .residents, by decide⟩

/-- C17: for an existing community without any dependent record (the `_id`s of the
Community collection being distinct, no store operation of the request being rejected),
`deleteCommunity` answers 200 with `success: true`, stores one new backup whose status is
pending, whose 13 `deletionMetadata.counts` are 0 and whose snapshot lists are empty, returns
a `deleted` map whose counts are all 0, removes the community and leaves every dependent
collection as it was. -/
theorem deleteCommunity_without_dependents (env : Env) (db : Db) (req : Req)
    (community : CommunityDoc)
    (hc : getCommunityById db req.id = some community)
    (hnd : NoDependents db req.id)
    (hb : env.faults.backupCreate = none) (hf : NoCascadeFault env.faults)
    (hu : (db.communities.map (fun x => x._id)).Nodup) :
    (deleteCommunity env db req).2.status = 200 ∧
    (deleteCommunity env db req).2.success = true ∧
    (∃ b, (deleteCommunity env db req).1.backups = db.backups ++ [b] ∧
      (deleteCommunity env db req).2.backupId? = some b._id ∧
      b.status = .pending ∧ (∀ k, b.deletionMetadata.counts k = 0) ∧
      ∀ k, b.communityData.lists k = []) ∧
    (∃ d, (deleteCommunity env db req).2.deleted? = some d ∧ ∀ k, d k = 0) ∧
    (∀ x ∈ (deleteCommunity env db req).1.communities, x._id ≠ req.id) ∧
    (∀ k, (deleteCommunity env db req).1.docs k = db.docs k) := by
  obtain ⟨r, hr⟩ := deleteCommunityCascade_succeeds env.faults
    { db with backups := db.backups ++ [newBackup env db req community] } req.id hf
  obtain ⟨hresp, hcomm, hdocs, hbk⟩ := deleteCommunity_run env db req community r hc hb hr
  obtain ⟨h1, h2, h3, _, h5, h6⟩ := deleteCommunityCascade_ok env.faults
    { db with backups := db.backups ++ [newBackup env db req community] } req.id r hr
  have hids : cascadeNotificationIds
      { db with backups := db.backups ++ [newBackup env db req community] } req.id = [] :=
    cascadeNotificationIds_of_no_owner _ _ (fun k _ d hd => (hnd k d hd).2)
  have hlists : ∀ k, (newBackup env db req community).communityData.lists k = [] := by
    intro k
    simp only [newBackup]
    exact filter_eq_nil_of_false _ _ (fun d hd => (hnd k d hd).1)
  refine ⟨by rw [hresp], by rw [hresp], ⟨newBackup env db req community, hbk, ?_, rfl, ?_, hlists⟩,
    ⟨r.deletedCounts, by rw [hresp]; rfl, ?_⟩, ?_, ?_⟩
  · rw [hresp]; rfl
  · intro k
    have := hlists k
    simp only [newBackup] at this ⊢
    rw [this]; rfl
  · intro k
    by_cases hk : k = .notifications
    · subst hk
      rw [h6, hids]; simp
    · rw [h5 k hk]
      simp only
      rw [filter_eq_nil_of_false _ _ (fun d hd => (hnd k d hd).2)]
      rfl
  · rw [hcomm, h3]
    exact findByIdAndDelete_absent req.id db.communities hu
  · intro k
    rw [hdocs]
    by_cases hk : k = .notifications
    · subst hk
      rw [h2, hids]; simp
    · rw [h1 k hk]
      exact filter_not_eq_self _ _ (fun d hd => (hnd k d hd).2)

/-- C17 at a concrete state: community `1` in a database without any dependent record. -/
theorem deleteCommunity_without_dependents_witness :
    (afterDelete (fun _ => [])).2.status = 200 ∧
    ∀ x ∈ (afterDelete (fun _ => [])).1.communities, x._id ≠ 1 :=
  have h := deleteCommunity_without_dependents { now := 100 } (sampleDb (fun _ => []))
    sampleReq sampleCommunity rfl (fun _ _ hd => nomatch hd) rfl ⟨fun _ => rfl, rfl⟩
    (by decide)
  ⟨h.1, h.2.2.2.2.1⟩

/-- C18: a `deleteCommunity` request either stores no backup (and does not answer 200), or
stores exactly one new backup, which has status pending, `deletedAt` equal to the instant of
the request and `permanentDeleteAt` equal to that instant plus 2,592,000,000 ms (30 days);
when the answer is 200, its `backup.id` is the id of that backup and its
`backup.canRestoreUntil` is that `permanentDeleteAt`. -/
theorem deleteCommunity_backup_deadline (env : Env) (db : Db) (req : Req) :
    ((deleteCommunity env db req).1.backups = db.backups ∧
      (deleteCommunity env db req).2.status ≠ 200) ∨
    ∃ b, (deleteCommunity env db req).1.backups = db.backups ++ [b] ∧
      b.status = .pending ∧ b.deletionMetadata.deletedAt = env.now ∧
      b.permanentDeleteAt = env.now + 2592000000 ∧
      ((deleteCommunity env db req).2.status = 200 →
        (deleteCommunity env db req).2.backupId? = some b._id ∧
        (deleteCommunity env db req).2.canRestoreUntil? = some b.permanentDeleteAt) := by
  rcases deleteCommunity_backups env db req with h | ⟨c, _, hbk, hresp⟩
  · exact Or.inl h
  · exact Or.inr ⟨newBackup env db req c, hbk, rfl, rfl, rfl, hresp⟩

/-- C18 at a concrete state: the delete of community `1` at instant `100` stores the pending
backup `1` with deadline `100 + 30 days`. -/
theorem deleteCommunity_backup_deadline_witness :
    ∃ b, (afterDelete residentsAndWorker).1.backups = [] ++ [b] ∧
      b.status = .pending ∧ b.deletionMetadata.deletedAt = 100 ∧
      b.permanentDeleteAt = 100 + 2592000000 ∧
      ((afterDelete residentsAndWorker).2.status = 200 →
        (afterDelete residentsAndWorker).2.backupId? = some b._id ∧
        (afterDelete residentsAndWorker).2.canRestoreUntil? = some b.permanentDeleteAt) :=
  (deleteCommunity_backup_deadline { now := 100 } (sampleDb residentsAndWorker)
    sampleReq).resolve_left (fun h => h.2 (by decide))

/-- C19, as stated, fails: the backup of community `1` holds three residents, one worker and
an empty `issues` list. The restore succeeds with `restored.residents = 3` and
`restored.workers = 1`, and `restored` has no `issues` key: no `0` is reported for a type
whose list is empty. -/
theorem restoreCommunity_omits_empty_types :
    (afterRestore residentsAndWorker).2.status = 200 ∧
    (findBackupById (afterDelete residentsAndWorker).1 1).map
      (fun b => b.communityData.lists .issues) = some [] ∧
    ((afterRestore residentsAndWorker).2.restored?).map
      (fun rc => (rc.lists .residents, rc.lists .workers, rc.lists .issues)) =
      some (some 3, some 1, none) := by
  decide

/-- C19, amended: on every successful `restoreCommunity`, the `restored` map of the response
holds `community: 1` and, for every dependent type whose snapshot list is not empty, the
number of records of that type in the snapshot; a type whose list is empty has no key in
the map. -/
theorem restoreCommunity_restored_counts (env : Env) (db : Db) (req : Req)
    (h : (restoreCommunity env db req).2.status = 200) :
    ∃ b rc, findBackupById db req.id = some b ∧
      (restoreCommunity env db req).2.restored? = some rc ∧ rc.community = some 1 ∧
      ∀ k, rc.lists k =
        if (b.communityData.lists k).length > 0 then some (b.communityData.lists k).length
        else none := by
  cases hb : findBackupById db req.id with
  | none => simp [restoreCommunity, hb] at h
  | some b =>
    by_cases h1 : b.status = .restored
    · simp [restoreCommunity, hb, h1] at h
    by_cases h2 : b.status = .permanently_deleted
    · simp [restoreCommunity, hb, h1, h2] at h
    by_cases h3 : env.now > b.permanentDeleteAt
    · simp [restoreCommunity, hb, h1, h2, h3] at h
    rcases Community.create_cases env.faults.communityCreate db.communities
        b.communityData.community with hc | ⟨m, hc⟩
    · rcases hr : restoreLists env.faults b.communityData restoreOrder
          { db with communities := db.communities ++ [b.communityData.community] }
          { community := some 1, lists := fun _ => none } with ⟨db1, rc, ok⟩
      cases ok with
      | some m => simp [restoreCommunity, hb, h1, h2, h3, hc, hr] at h
      | none =>
        cases hsave : env.faults.backupSave with
        | some m => simp [restoreCommunity, hb, h1, h2, h3, hc, hr, hsave] at h
        | none =>
          have hcnt := restoreLists_counts env.faults b.communityData restoreOrder
              { db with communities := db.communities ++ [b.communityData.community] }
              { community := some 1, lists := fun _ => none } (by rw [hr])
          rw [hr] at hcnt
          simp only at hcnt
          refine ⟨b, rc, rfl, ?_, hcnt.1, ?_⟩
          · simp only [restoreCommunity, hb, h1, h2, h3, hc, hr, hsave, if_false,
              Response.restored?]
          · intro k
            rw [hcnt.2 k]
            simp [mem_restoreOrder k]
    · simp [restoreCommunity, hb, h1, h2, h3, hc] at h

/-- C19 (amended) at a concrete state: the backup of community `1` with three residents and
one worker, restored at instant `200`. -/
theorem restoreCommunity_restored_counts_witness :
    ∃ b rc, findBackupById (afterDelete residentsAndWorker).1 sampleReq.id = some b ∧
      (afterRestore residentsAndWorker).2.restored? = some rc ∧ rc.community = some 1 ∧
      ∀ k, rc.lists k =
        if (b.communityData.lists k).length > 0 then some (b.communityData.lists k).length
        else none :=
  restoreCommunity_restored_counts { now := 200 } (afterDelete residentsAndWorker).1 sampleReq
    (by decide)

/-- C20: when `AdminAuditLog.create` is rejected, `createAuditLog` returns `null` and leaves
the state as it is instead of throwing. `deleteCommunity` and `restoreCommunity` then send
the same response as in the run in which the audit write is accepted, and leave the same
records in the communities, in every dependent collection, in the interest forms and in the
backups; the audit log itself is left as it was before the request (the entry is not
written). -/
theorem audit_failure_is_swallowed (env : Env) (db : Db) (req : Req) (msg : String)
    (entry : AuditLog) :
    createAuditLog (withAuditFault env msg).faults db entry = (db, none) ∧
    (deleteCommunity (withAuditFault env msg) db req).2 =
      (deleteCommunity (withoutAuditFault env) db req).2 ∧
    SameData (deleteCommunity (withAuditFault env msg) db req).1
      (deleteCommunity (withoutAuditFault env) db req).1 ∧
    (deleteCommunity (withAuditFault env msg) db req).1.auditLogs = db.auditLogs ∧
    (restoreCommunity (withAuditFault env msg) db req).2 =
      (restoreCommunity (withoutAuditFault env) db req).2 ∧
    SameData (restoreCommunity (withAuditFault env msg) db req).1
      (restoreCommunity (withoutAuditFault env) db req).1 ∧
    (restoreCommunity (withAuditFault env msg) db req).1.auditLogs = db.auditLogs :=
  ⟨rfl, (deleteCommunity_audit_fault env db req msg).1,
    (deleteCommunity_audit_fault env db req msg).2,
    deleteCommunity_auditLogs_of_fault env db req msg,
    (restoreCommunity_audit_fault env db req msg).1,
    (restoreCommunity_audit_fault env db req msg).2,
    restoreCommunity_auditLogs_of_fault env db req msg⟩

/-- C20 at a concrete state: the delete of community `1` answers 200 with a rejected audit
write, as it does with an accepted one. -/
theorem audit_failure_is_swallowed_witness :
    (deleteCommunity (withAuditFault { now := 100 } "audit store down")
      (sampleDb residentsAndWorker) sampleReq).2.status = 200 ∧
    (deleteCommunity (withAuditFault { now := 100 } "audit store down")
      (sampleDb residentsAndWorker) sampleReq).2 =
      (deleteCommunity (withoutAuditFault { now := 100 }) (sampleDb residentsAndWorker)
        sampleReq).2 ∧
    (deleteCommunity (withAuditFault { now := 100 } "audit store down")
      (sampleDb residentsAndWorker) sampleReq).1.auditLogs = [] :=
  have h := audit_failure_is_swallowed { now := 100 } (sampleDb residentsAndWorker) sampleReq
    "audit store down" sampleEntry
  ⟨by decide, h.2.1, h.2.2.2.1⟩

/-! ## Lemmas for the failure paths, the guard, the client and the flat numbers -/

theorem deleteCommunityCascade_docs (f : Faults) (db : Db) (c : ObjectId) (k : Coll)
    (hk : k ≠ .notifications) :
    (deleteCommunityCascade f db c).1.docs k =
      match f.deleteMany k with
      | some _ => db.docs k
      | none => (db.docs k).filter (fun d => !cascadeFilter c k d) := by
  unfold deleteCommunityCascade
  simp only
  repeat' split
  all_goals first
    | rfl
    | simp_all

theorem deleteCommunityCascade_communities (f : Faults) (db : Db) (c : ObjectId) :
    (deleteCommunityCascade f db c).1.communities = db.communities ∨
    (deleteCommunityCascade f db c).1.communities = findByIdAndDelete c db.communities := by
  unfold deleteCommunityCascade
  simp only
  repeat' split
  all_goals first
    | exact Or.inl rfl
    | exact Or.inr rfl

theorem mem_findByIdAndDelete (c : ObjectId) (l : List CommunityDoc) (x : CommunityDoc)
    (hx : x ∈ l) (hne : x._id ≠ c) : x ∈ findByIdAndDelete c l := by
  induction l with
  | nil => simp at hx
  | cons a as ih =>
    unfold findByIdAndDelete
    by_cases ha : a._id = c
    · simp only [ha, beq_self_eq_true, if_true]
      rcases List.mem_cons.mp hx with rfl | h
      · exact absurd ha hne
      · exact h
    · have e : (a._id == c) = false := by simp [ha]
      simp only [e, Bool.false_eq_true, if_false, List.mem_cons]
      rcases List.mem_cons.mp hx with rfl | h
      · exact Or.inl rfl
      · exact Or.inr (ih h)

theorem deleteCommunity_of_cascade_error (env : Env) (db : Db) (req : Req) (c : CommunityDoc)
    (msg : String)
    (hc : getCommunityById db req.id = some c) (hf : env.faults.backupCreate = none)
    (hcas : (deleteCommunityCascade env.faults
      { db with backups := db.backups ++ [newBackup env db req c] } req.id).2 = .error msg) :
    deleteCommunity env db req =
      ((deleteCommunityCascade env.faults
        { db with backups := db.backups ++ [newBackup env db req c] } req.id).1,
        { status := 500, success := false, message := "Failed to delete community",
          body := .error msg }) := by
  rcases hr : deleteCommunityCascade env.faults
    { db with backups := db.backups ++ [newBackup env db req c] } req.id with ⟨db2, res⟩
  rw [hr] at hcas
  simp only at hcas
  subst hcas
  simp only [deleteCommunity, hc, hf, hr]

theorem hasPermission_admin : hasPermission "admin" "delete:critical" = .ok false := by
  rfl

theorem hasPermission_support : hasPermission "support" "delete:critical" = .ok false := by
  rfl

theorem hasPermission_super_admin :
    hasPermission "super-admin" "delete:critical" = .ok true := by
  rfl

theorem hasPermission_undefined (r : String) (h : PERMISSIONS r = .undefined) :
    hasPermission r "delete:critical" = .ok false := by
  unfold hasPermission
  rw [h]
  rfl

theorem hasPermission_other (r : String) (h : r ≠ "super-admin") :
    hasPermission r "delete:critical" ≠ .ok true := by
  by_cases ha : r = "admin"
  · subst ha; rw [hasPermission_admin]; simp
  by_cases hs : r = "support"
  · subst hs; rw [hasPermission_support]; simp
  by_cases hp : r ∈ objectPrototypeKeys
  · have : PERMISSIONS r = .inherited := by simp [PERMISSIONS, h, ha, hs, hp]
    unfold hasPermission
    rw [this]
    simp
  · have : PERMISSIONS r = .undefined := by simp [PERMISSIONS, h, ha, hs, hp]
    rw [hasPermission_undefined r this]
    simp

theorem requirePermission_next_iff (role : Option String) :
    requirePermission "delete:critical" role = .next ↔ role = some "super-admin" := by
  constructor
  · intro h
    unfold requirePermission at h
    simp only at h
    by_cases he : effectiveRole role = "super-admin"
    · cases role with
      | none => simp [effectiveRole] at he
      | some r =>
        unfold effectiveRole at he
        simp only at he
        split at he
        · simp at he
        · rw [he]
    · exfalso
      have := hasPermission_other _ he
      revert h
      cases hh : hasPermission (effectiveRole role) "delete:critical" with
      | error e => simp
      | ok b =>
        cases b
        · simp
        · exact absurd hh this
  · intro h
    subst h
    decide

theorem requestWith_fuel (server : Nat → FetchResult) (fuel : Nat) :
    ∀ retries extra, maxRetries - retries + 1 ≤ fuel →
      requestWith server (fuel + extra) retries = requestWith server fuel retries := by
  induction fuel with
  | zero => intro retries extra h; omega
  | succ fuel ih =>
    intro retries extra h
    have e : fuel + 1 + extra = (fuel + extra) + 1 := by omega
    rw [e]
    unfold requestWith
    by_cases hr : retries < maxRetries
    · have hfuel : maxRetries - (retries + 1) + 1 ≤ fuel := by omega
      simp only [hr, if_true, ih (retries + 1) extra hfuel]
    · simp only [hr, if_false]

theorem digitValue_digitChar (k : Nat) (h : k < 10) : digitValue (Nat.digitChar k) = k := by
  interval_cases k <;> rfl

theorem digitsValue_append_singleton (xs : List Char) (d : Char) :
    digitsValue (xs ++ [d]) = 10 * digitsValue xs + digitValue d := by
  simp [digitsValue, List.foldl_append]

theorem toDigitsCore_spec (fuel : Nat) :
    ∀ (n : Nat) (ds : List Char), n < fuel →
      ∃ xs, Nat.toDigitsCore 10 fuel n ds = xs ++ ds ∧ digitsValue xs = n := by
  induction fuel with
  | zero => intro n ds h; omega
  | succ fuel ih =>
    intro n ds h
    unfold Nat.toDigitsCore
    simp only
    by_cases h0 : n / 10 = 0
    · simp only [h0, if_true]
      refine ⟨[Nat.digitChar (n % 10)], rfl, ?_⟩
      have hlt : n < 10 := by omega
      simp only [digitsValue, List.foldl_cons, List.foldl_nil]
      rw [digitValue_digitChar _ (Nat.mod_lt _ (by decide))]
      omega
    · simp only [h0, if_false]
      have hlt : n / 10 < fuel := by omega
      obtain ⟨xs, hxs, hval⟩ := ih (n / 10) (Nat.digitChar (n % 10) :: ds) hlt
      refine ⟨xs ++ [Nat.digitChar (n % 10)], by rw [hxs]; simp, ?_⟩
      rw [digitsValue_append_singleton, hval,
        digitValue_digitChar _ (Nat.mod_lt _ (by decide))]
      omega

theorem toString_nat_injective (a b : Nat) (h : toString a = toString b) : a = b := by
  have ha := toDigitsCore_spec (a + 1) a [] (by omega)
  have hb := toDigitsCore_spec (b + 1) b [] (by omega)
  obtain ⟨xs, hxs, hva⟩ := ha
  obtain ⟨ys, hys, hvb⟩ := hb
  have hd : Nat.toDigits 10 a = Nat.toDigits 10 b := by
    have : (Nat.toDigits 10 a).asString = (Nat.toDigits 10 b).asString := h
    exact congrArg String.data this
  unfold Nat.toDigits at hd
  rw [hxs, hys] at hd
  simp only [List.append_nil] at hd
  rw [← hva, ← hvb, hd]

theorem flatNumber_injective (name : String) (a b : Nat)
    (h : name ++ "-" ++ toString a = name ++ "-" ++ toString b) : a = b := by
  apply toString_nat_injective
  have := congrArg String.data h
  simp only [String.data_append] at this
  exact String.ext (List.append_cancel_left this)

theorem flatNumbers_eq (name : String) (totalFloors flatsPerFloor : Nat) :
    (generateFlats name totalFloors flatsPerFloor).map (fun f => f.flatNumber) =
      (List.product (List.range' 1 totalFloors) (List.range' 1 flatsPerFloor)).map
        (fun p => name ++ "-" ++ toString (p.1 * 100 + p.2)) := by
  simp [generateFlats, List.product, List.map_flatMap, List.map_map, Function.comp_def]

theorem PERMISSIONS_of_inherited (r : String) (h : r ∈ objectPrototypeKeys) :
    PERMISSIONS r = .inherited := by
  simp only [objectPrototypeKeys, List.mem_cons, List.mem_singleton, List.not_mem_nil,
    or_false] at h
  rcases h with h | h | h | h | h | h | h | h | h | h | h | h <;> subst h <;> rfl

theorem PERMISSIONS_of_unknown (r : String) (h1 : r ∉ permissionKeys)
    (h2 : r ∉ objectPrototypeKeys) : PERMISSIONS r = .undefined := by
  simp only [permissionKeys, List.mem_cons, List.mem_singleton, List.not_mem_nil, or_false,
    not_or] at h1
  simp [PERMISSIONS, h1.1, h1.2.1, h1.2.2, h2]

/-! ## Failure paths, authorization, sanitization, validation, retries, flat numbers -/

/-- C21: when `deleteCommunityCascade` throws after the backup was created, `deleteCommunity`
answers 500 with `success: false`; the backup created by that call is stored as created,
with status pending. A later `restoreCommunity` on its id passes the not-found and the two
status guards: up to `permanentDeleteAt` it reaches the reinsertion (answer 200, or 500
'Failed to restore community' when an insert is rejected), and after `permanentDeleteAt` it
is stopped by the expiry guard only. -/
theorem deleteCommunity_cascade_failure_keeps_backup (env : Env) (db : Db) (req : Req)
    (c : CommunityDoc) (msg : String)
    (hc : getCommunityById db req.id = some c) (hf : env.faults.backupCreate = none)
    (hcas : (deleteCommunityCascade env.faults
      { db with backups := db.backups ++ [newBackup env db req c] } req.id).2 = .error msg) :
    (deleteCommunity env db req).2.status = 500 ∧
    (deleteCommunity env db req).2.success = false ∧
    (deleteCommunity env db req).1.backups = db.backups ++ [newBackup env db req c] ∧
    findBackupById (deleteCommunity env db req).1 (newBackup env db req c)._id =
      some (newBackup env db req c) ∧
    (newBackup env db req c).status = .pending ∧
    ∀ (env2 : Env) (req2 : Req), req2.id = (newBackup env db req c)._id →
      (env2.now ≤ (newBackup env db req c).permanentDeleteAt →
        (restoreCommunity env2 (deleteCommunity env db req).1 req2).2.status = 200 ∨
        ((restoreCommunity env2 (deleteCommunity env db req).1 req2).2.status = 500 ∧
          (restoreCommunity env2 (deleteCommunity env db req).1 req2).2.message =
            "Failed to restore community")) ∧
      (env2.now > (newBackup env db req c).permanentDeleteAt →
        (restoreCommunity env2 (deleteCommunity env db req).1 req2).2.message =
          "Backup expired, cannot restore") := by
  have hrun := deleteCommunity_of_cascade_error env db req c msg hc hf hcas
  have hbk : (deleteCommunity env db req).1.backups =
      db.backups ++ [newBackup env db req c] := by
    rw [hrun]
    exact deleteCommunityCascade_backups _ _ _
  have hfind : findBackupById (deleteCommunity env db req).1 (newBackup env db req c)._id =
      some (newBackup env db req c) := by
    unfold findBackupById
    rw [hbk]
    exact find?_append_fresh _ _ (freshId_not_mem _)
  refine ⟨by rw [hrun], by rw [hrun], hbk, hfind, rfl, ?_⟩
  intro env2 req2 hid
  rw [← hid] at hfind
  refine ⟨fun hnow => ?_, fun hexp => ?_⟩
  · exact restoreCommunity_pass_status env2 _ req2 _ hfind rfl hnow
  · rw [restoreCommunity_of_pending_expired env2 _ req2 _ hfind rfl hexp]

/-- C21 at a concrete state: the delete of community `1` whose `deleteMany` on Ad is
rejected. -/
theorem deleteCommunity_cascade_failure_keeps_backup_witness :
    afterFailedCascade.2.status = 500 ∧
    (findBackupById afterFailedCascade.1 1).map (fun b => b.status) = some .pending ∧
    ((restoreCommunity { now := 200 } afterFailedCascade.1 sampleReq).2.status = 200 ∨
      ((restoreCommunity { now := 200 } afterFailedCascade.1 sampleReq).2.status = 500 ∧
        (restoreCommunity { now := 200 } afterFailedCascade.1 sampleReq).2.message =
          "Failed to restore community")) :=
  have h := deleteCommunity_cascade_failure_keeps_backup
    { now := 100
      faults := { deleteMany := fun k => if k = .ads then some "connection lost" else none } }
    (sampleDb residentsAndWorker) sampleReq sampleCommunity "connection lost" rfl rfl rfl
  ⟨h.1, congrArg (Option.map (fun b => b.status)) h.2.2.2.1,
    (h.2.2.2.2.2 { now := 200 } sampleReq rfl).1 (by decide)⟩

/-- C22, as stated, fails: in the delete of community `1` whose `deleteMany` on Ad is
rejected, the three residents are deleted, and the 500 response carries the message
'Failed to delete community' and no `deleted` map: no count of a deletion that succeeded is
reported. -/
theorem failed_cascade_response_has_no_counts :
    (sampleDb residentsAndWorker).docs .residents =
      [{ _id := 11, community := some 1 }, { _id := 12, community := some 1 },
       { _id := 13, community := some 1 }] ∧
    afterFailedCascade.1.docs .residents = [] ∧
    afterFailedCascade.2.status = 500 ∧
    afterFailedCascade.2.message = "Failed to delete community" ∧
    afterFailedCascade.2.deleted?.isNone = true := by
  decide

/-- C22, amended: when the cascade throws after the backup was created, the response of
`deleteCommunity` is 500 with `success: false`, the message 'Failed to delete community' and
the message of the error, and it carries no per-type counts; the deletions that were accepted
stay applied (every collection whose `deleteMany` was not rejected has lost its matching
records). -/
theorem deleteCommunity_cascade_failure_response (env : Env) (db : Db) (req : Req)
    (c : CommunityDoc) (msg : String)
    (hc : getCommunityById db req.id = some c) (hf : env.faults.backupCreate = none)
    (hcas : (deleteCommunityCascade env.faults
      { db with backups := db.backups ++ [newBackup env db req c] } req.id).2 = .error msg) :
    (deleteCommunity env db req).2 =
      { status := 500, success := false, message := "Failed to delete community",
        body := .error msg } ∧
    (deleteCommunity env db req).2.deleted? = none ∧
    ∀ k, k ≠ .notifications → env.faults.deleteMany k = none →
      (deleteCommunity env db req).1.docs k =
        (db.docs k).filter (fun d => !cascadeFilter req.id k d) := by
  have hrun := deleteCommunity_of_cascade_error env db req c msg hc hf hcas
  refine ⟨by rw [hrun], by rw [hrun]; rfl, ?_⟩
  intro k hk hnone
  rw [hrun]
  simp only
  rw [deleteCommunityCascade_docs _ _ _ k hk, hnone]

/-- C22 (amended) at a concrete state: the delete of community `1` whose `deleteMany` on Ad
is rejected. -/
theorem deleteCommunity_cascade_failure_response_witness :
    afterFailedCascade.2 =
      { status := 500, success := false, message := "Failed to delete community",
        body := .error "connection lost" } ∧
    afterFailedCascade.2.deleted? = none :=
  have h := deleteCommunity_cascade_failure_response
    { now := 100
      faults := { deleteMany := fun k => if k = .ads then some "connection lost" else none } }
    (sampleDb residentsAndWorker) sampleReq sampleCommunity "connection lost" rfl rfl rfl
  ⟨h.1, h.2.1⟩

/-- C23, evaluated at the failing input: `'constructor'` is not a key of `PERMISSIONS`, but
the read `PERMISSIONS['constructor']` yields the inherited `Object` function, which is truthy,
so the default `|| []` is not taken and `rolePermissions.includes` is not a function:
`hasPermission`, documented to return a boolean, throws, and the guard neither responds 403
nor calls `next`. -/
theorem requirePermission_inherited_role_throws :
    "constructor" ∉ permissionKeys ∧
    requirePermission "delete:critical" (some "constructor") =
      .throws "rolePermissions.includes is not a function" ∧
    requirePermission "delete:critical" (some "constructor") ≠
      .forbidden 403 false "Insufficient permissions" "delete:critical" "constructor" := by
  decide

/-- The guard on every role: the delete-preview, delete and restore routes are guarded by
`requirePermission('delete:critical')`, and that guard calls `next` if and only if the role
of the request is 'super-admin'. For role 'admin', role 'support', a request with no role
(defaulted to 'admin') and any role that is neither a key of `PERMISSIONS` nor the name of a
property inherited from `Object.prototype` it responds 403; a role that names an inherited
property (such as 'constructor') is where `hasPermission` throws. -/
theorem requirePermission_delete_critical (role : Option String) :
    (∀ r ∈ AdminRouter,
      r.handler ∈ ["getDeletePreview", "deleteCommunity", "restoreCommunity"] →
        r.middleware = [.requirePermission "delete:critical"]) ∧
    (({ method := "GET", path := "/api/communities/:id/delete-preview"
        middleware := [.requirePermission "delete:critical"]
        handler := "getDeletePreview" } : Route) ∈ AdminRouter ∧
      ({ method := "DELETE", path := "/api/communities/:id"
         middleware := [.requirePermission "delete:critical"]
         handler := "deleteCommunity" } : Route) ∈ AdminRouter ∧
      ({ method := "POST", path := "/api/communities/:backupId/restore"
         middleware := [.requirePermission "delete:critical"]
         handler := "restoreCommunity" } : Route) ∈ AdminRouter) ∧
    (requirePermission "delete:critical" role = .next ↔ role = some "super-admin") ∧
    (role = some "admin" ∨ role = some "support" ∨ role = none ∨
        (effectiveRole role ∉ permissionKeys ∧ effectiveRole role ∉ objectPrototypeKeys) →
      requirePermission "delete:critical" role =
        .forbidden 403 false "Insufficient permissions" "delete:critical"
          (effectiveRole role)) ∧
    (effectiveRole role ∈ objectPrototypeKeys →
      requirePermission "delete:critical" role =
        .throws "rolePermissions.includes is not a function") := by
  refine ⟨by decide, by decide, requirePermission_next_iff role, ?_, ?_⟩
  · intro h
    have hfalse : hasPermission (effectiveRole role) "delete:critical" = .ok false := by
      rcases h with h | h | h | h
      · subst h; exact hasPermission_admin
      · subst h; exact hasPermission_support
      · subst h; exact hasPermission_admin
      · exact hasPermission_undefined _ (PERMISSIONS_of_unknown _ h.1 h.2)
    unfold requirePermission
    simp only [hfalse]
  · intro h
    have hthrow : hasPermission (effectiveRole role) "delete:critical" =
        .error "rolePermissions.includes is not a function" := by
      unfold hasPermission
      rw [PERMISSIONS_of_inherited _ h]
    unfold requirePermission
    simp only [hthrow]

/-- The guard at concrete requests: no role, role 'support' and the unknown role 'auditor'
get 403; role 'super-admin' passes. -/
theorem requirePermission_delete_critical_witness :
    requirePermission "delete:critical" none =
      .forbidden 403 false "Insufficient permissions" "delete:critical" "admin" ∧
    requirePermission "delete:critical" (some "support") =
      .forbidden 403 false "Insufficient permissions" "delete:critical" "support" ∧
    requirePermission "delete:critical" (some "auditor") =
      .forbidden 403 false "Insufficient permissions" "delete:critical" "auditor" ∧
    requirePermission "delete:critical" (some "super-admin") = .next :=
  ⟨(requirePermission_delete_critical none).2.2.2.1 (Or.inr (Or.inr (Or.inl rfl))),
    (requirePermission_delete_critical (some "support")).2.2.2.1 (Or.inr (Or.inl rfl)),
    (requirePermission_delete_critical (some "auditor")).2.2.2.1
      (Or.inr (Or.inr (Or.inr (by decide)))),
    (requirePermission_delete_critical (some "super-admin")).2.2.1.mpr rfl⟩

/-- C24, evaluated at the failing state: community `1` owns three residents and one worker.
The preview reports `willDelete.residents = 3` and `willDelete.workers = 0` (the number of
managers), while `deleteCommunity` on the same state deletes three residents and one
worker. -/
theorem preview_workers_differ_from_deleted :
    (sampleDb residentsAndWorker).docs .workers = [{ _id := 14, community := some 1 }] ∧
    ((getDeletePreview (sampleDb residentsAndWorker) sampleReq).willDelete?).map
      (fun w => (w.residents, w.workers)) = some (3, 0) ∧
    (afterDelete residentsAndWorker).2.status = 200 ∧
    ((afterDelete residentsAndWorker).2.deleted?).map
      (fun d => (d .residents, d .workers)) = some (3, 1) ∧
    (afterDelete residentsAndWorker).1.docs .workers = [] := by
  decide

/-- C25, evaluated at failing inputs: removing the inner `javascript:` of
`javajavascript:script:alert(1)` leaves `javascript:alert(1)`, and removing the event handler
of `JAVAonclick=SCRIPT:` leaves `JAVASCRIPT:`: the output contains `javascript:`. (An input
without such nesting, like `<a href=javascript:x>`, is cleaned.) -/
theorem sanitizeTextInput_leaves_javascript :
    sanitizeTextInput "javajavascript:script:alert(1)" = "javascript:alert(1)" ∧
    containsJavascript (sanitizeTextInput "javajavascript:script:alert(1)").toList = true ∧
    sanitizeTextInput "JAVAonclick=SCRIPT:" = "JAVASCRIPT:" ∧
    sanitizeTextInput "<a href=javascript:x>" = "a href=x" := by
  decide

/-- C26, evaluated at failing inputs (no space exists yet): with a blank `spaceType` the
call of `validateFields` throws (its second argument is the array of names, not the
response), and `createSpace` answers 500 'Internal server error' instead of 400; with
`spaceType` missing from the body, `validateFields` sees no such entry, `Amenity.find` is
issued, and the later `spaceType.trim()` throws: 500 again, after a database query. In both
runs no Amenity is created. -/
theorem createSpace_blank_or_missing_field :
    createSpace (fun _ _ => 0)
        { body := [("spaceType", .string "  "), ("spaceName", .string "Club house")]
          community := 1 } =
      { ops := []
        reply := { status := 500, success := false, message := "Internal server error" } } ∧
    createSpace (fun _ _ => 0)
        { body := [("spaceName", .string "Club house")], community := 1 } =
      { ops := [.find (.string "Club house") 1]
        reply := { status := 500, success := false, message := "Internal server error" } } := by
  decide

/-- C27, evaluated at the failing input: against a server that always answers 401,
`request` calls `fetch` four times (and `handleUnauthorized` four times, sleeping 1000, 2000
and 4000 ms in between) before it rejects with 'Unauthorized': the error thrown for 401 has
no `status`, so the `catch` block retries it like a network error. A 404 whose body does not
parse is not retried. -/
theorem request_retries_after_401 :
    request (fun _ => .response 401 none) 0 =
      ([.fetch, .handleUnauthorized, .sleep 1000, .fetch, .handleUnauthorized, .sleep 2000,
        .fetch, .handleUnauthorized, .sleep 4000, .fetch, .handleUnauthorized],
        .rejected "Unauthorized" none) ∧
    fetchCount (request (fun _ => .response 401 none) 0).1 = 4 ∧
    fetchCount (request (fun _ => .response 404 none) 0).1 = 1 := by
  decide

/-- A 404 whose body is the JSON value `null`: reading `errorData.message` throws an error
without `status`, and `request` calls `fetch` four times before it rejects with it. -/
theorem request_retries_after_null_error_body :
    fetchCount (request (fun _ => .response 404 (some .null)) 0).1 = 4 ∧
    (request (fun _ => .response 404 (some .null)) 0).2 =
      .rejected "Cannot read properties of null (reading 'message')" none ∧
    (request (fun _ => .response 404 (some (.value (some "No such community")))) 0) =
      ([.fetch], .rejected "No such community" (some 404)) := by
  decide

/-- C28: whatever the outcome of `deleteCommunityCascade(c)`, every Community whose id is
not `c` is still stored after it, and in every dependent collection other than Notifications
every record that the filter of its type does not match is still stored; a record matched by
a filter has `c` in one of its ownership fields (`community`, `communityId`,
`communityAssigned`, `assignedCommunity`). -/
theorem cascade_touches_only_its_community (f : Faults) (db : Db) (c : ObjectId) :
    (∀ x ∈ db.communities, x._id ≠ c → x ∈ (deleteCommunityCascade f db c).1.communities) ∧
    (∀ k, k ≠ .notifications → ∀ d ∈ db.docs k, cascadeFilter c k d = false →
      d ∈ (deleteCommunityCascade f db c).1.docs k) ∧
    (∀ k d, cascadeFilter c k d = true →
      d.community = some c ∨ d.communityId = some c ∨ d.communityAssigned = some c ∨
        d.assignedCommunity = some c) := by
  refine ⟨?_, ?_, ?_⟩
  · intro x hx hne
    rcases deleteCommunityCascade_communities f db c with h | h
    · rw [h]; exact hx
    · rw [h]; exact mem_findByIdAndDelete c _ x hx hne
  · intro k hk d hd hfalse
    rw [deleteCommunityCascade_docs f db c k hk]
    split
    · exact hd
    · exact List.mem_filter.mpr ⟨hd, by simp [hfalse]⟩
  · intro k d h
    cases k <;> simp [cascadeFilter] at h <;> tauto

/-- C28 at a concrete state: the cascade on community `1` keeps community `2` and its
resident. -/
theorem cascade_touches_only_its_community_witness :
    ({ _id := 2, name := "Lake View", location := "Pune" } : CommunityDoc) ∈
      (deleteCommunityCascade {} twoCommunities 1).1.communities ∧
    ({ _id := 21, community := some 2 } : Doc) ∈
      (deleteCommunityCascade {} twoCommunities 1).1.docs .residents :=
  have h := cascade_touches_only_its_community {} twoCommunities 1
  ⟨h.1 _ (by decide) (by decide), h.2.1 .residents (by decide) _ (by decide) rfl⟩

/-- C29, evaluated at the failing state: community `1` has one Notification with
`community = 1` that no owner lists. `deleteCommunity` answers 200 and stores the notification
in the `notifications` list of the backup, but does not remove it from the live collection
(`deleted.notifications = 0`); the later restore of that backup is rejected on its insert. -/
theorem snapshot_notification_stays_live :
    (afterDelete looseNotification).2.status = 200 ∧
    (afterDelete looseNotification).1.backups.map
      (fun b => b.communityData.lists .notifications) = [[{ _id := 20, community := some 1 }]] ∧
    (afterDelete looseNotification).1.docs .notifications =
      [{ _id := 20, community := some 1 }] ∧
    ((afterDelete looseNotification).2.deleted?).map (fun d => d .notifications) = some 0 ∧
    (afterRestore looseNotification).2.message = "Failed to restore community" := by
  decide

set_option maxRecDepth 100000 in
/-- C30, as stated, fails: for the block `A` with 2 floors and 101 flats per floor, the flat
101 of floor 1 and the flat 1 of floor 2 (positions 100 and 101 of the generated list) both
get the flat number `A-201`. -/
theorem flatNumbers_collide :
    (generateFlats "A" 2 101)[100]? =
      some { flatNumber := "A-201", floor := 1, status := "Vacant" } ∧
    (generateFlats "A" 2 101)[101]? =
      some { flatNumber := "A-201", floor := 2, status := "Vacant" } := by
  decide

/-- C30, amended: for a block with name `n`, `totalFloors >= 1` and `flatsPerFloor >= 1`, the
generated flats have pairwise distinct `flatNumber` values if and only if
`flatsPerFloor <= 100` or there is a single floor. -/
theorem flatNumbers_nodup_iff (name : String) (totalFloors flatsPerFloor : Nat)
    (hF : 1 ≤ totalFloors) (hP : 1 ≤ flatsPerFloor) :
    ((generateFlats name totalFloors flatsPerFloor).map (fun f => f.flatNumber)).Nodup ↔
      (flatsPerFloor ≤ 100 ∨ totalFloors = 1) := by
  rw [flatNumbers_eq]
  have hnd : (List.product (List.range' 1 totalFloors) (List.range' 1 flatsPerFloor)).Nodup :=
    List.Nodup.product (List.nodup_range' 1 totalFloors) (List.nodup_range' 1 flatsPerFloor)
  rw [List.nodup_map_iff_inj_on hnd]
  constructor
  · intro h
    by_contra hcon
    have h1 : (1, 101) ∈
        List.product (List.range' 1 totalFloors) (List.range' 1 flatsPerFloor) :=
      List.mem_product.mpr ⟨by simp only [List.mem_range'_1]; omega,
        by simp only [List.mem_range'_1]; omega⟩
    have h2 : (2, 1) ∈
        List.product (List.range' 1 totalFloors) (List.range' 1 flatsPerFloor) :=
      List.mem_product.mpr ⟨by simp only [List.mem_range'_1]; omega,
        by simp only [List.mem_range'_1]; omega⟩
    have := h (1, 101) h1 (2, 1) h2 rfl
    simp at this
  · intro h x hx y hy hxy
    obtain ⟨a, b⟩ := x
    obtain ⟨c, d⟩ := y
    have hx := List.mem_product.mp hx
    have hy := List.mem_product.mp hy
    simp only [List.mem_range'_1] at hx hy
    have hs := flatNumber_injective name _ _ hxy
    simp only at hs
    have : a = c ∧ b = d := by omega
    rw [this.1, this.2]

/-- C30 (amended) at a concrete block: 12 floors of 8 flats. -/
theorem flatNumbers_nodup_iff_witness :
    ((generateFlats "A" 12 8).map (fun f => f.flatNumber)).Nodup :=
  (flatNumbers_nodup_iff "A" 12 8 (by decide) (by decide)).mpr (Or.inl (by decide))

end UrbanEase
